import Mathlib

/-!
# Verification of the PL/SQL metadata-extraction core of `mzcode_update`

This file shallowly embeds the core of the repository's PL/SQL ingestion
pipeline (`metazcode/sdk/ingestion/plsql/{type_mapping,sql_semantics,plsql_parser}.py`)
and proves / refutes the frozen specification claims about it.

The Python code leans heavily on the `re` module, so the embedding contains a
small faithful backtracking matcher for the exact pattern constructs the source
uses (character classes, alternation, greedy and lazy repetition, groups,
lookahead, word boundaries and Python's `$` semantics).  Every source pattern
is transcribed as a `Rx` value, and `re.search` / `re.finditer` / `re.match` /
`re.sub` are mirrored by `rxSearch` / `rxFindIter` / `rxMatchAt` / `rxSub`.

Strings are modelled as `List Char` (named `Str` below); Python floats that
carry confidence scores only ever take values produced by `min` over the
constants 1.0 / 0.8 / 0.7 / 0.5 / 0.3 and averages of those, so they are
modelled as rationals.

The dependency `sqlglot` is a third-party library that is *absent* from the
repository's bundled virtual environment (`src/venv/Lib/site-packages` contains
only `metazcode`), so in the shipped configuration `_HAS_SQLGLOT = False` in
both `plsql_parser.py` and `sql_semantics.py`.  The embedding keeps the flag
and the AST outcome abstract in an `AstEnv` parameter so that theorems can
quantify over any AST behaviour; the concrete environment `noSqlglot` models
the shipped one.
-/

namespace Mz

/-- Python strings, modelled as lists of characters. -/
abbrev Str := List Char

/-- Convert a Lean string literal to the `Str` representation. -/
def lstr (s : String) : Str := s.toList

/-! ## Python-like character predicates and string helpers -/

/-- ASCII lower-casing of a character (Python `str.lower` on our alphabet). -/
def lowC (c : Char) : Char :=
  if 'A' ≤ c ∧ c ≤ 'Z' then Char.ofNat (c.toNat + 32) else c

/-- ASCII upper-casing of a character (Python `str.upper` on our alphabet). -/
def upC (c : Char) : Char :=
  if 'a' ≤ c ∧ c ≤ 'z' then Char.ofNat (c.toNat - 32) else c

def lowS (s : Str) : Str := s.map lowC

def upS (s : Str) : Str := s.map upC

/-- Python `\s` (ASCII): space, tab, newline, carriage return, form feed, vertical tab. -/
def isSpaceC (c : Char) : Bool :=
  c = ' ' ∨ c = '\t' ∨ c = '\n' ∨ c = '\r' ∨ c = '\x0b' ∨ c = '\x0c'

def isDigitC (c : Char) : Bool := '0' ≤ c ∧ c ≤ '9'

def isAlphaC (c : Char) : Bool := ('a' ≤ c ∧ c ≤ 'z') ∨ ('A' ≤ c ∧ c ≤ 'Z')

/-- Python `\w` (ASCII): letters, digits, underscore. -/
def isWordC (c : Char) : Bool := isAlphaC c ∨ isDigitC c ∨ c = '_'

/-- The character class `[a-zA-Z0-9_\$#]` used for identifiers in the parser. -/
def isIdentC (c : Char) : Bool := isAlphaC c ∨ isDigitC c ∨ c = '_' ∨ c = '$' ∨ c = '#'

/-- The character class `[a-zA-Z0-9_\.\$#\"]` used for table tokens in the parser. -/
def isTableC (c : Char) : Bool := isIdentC c ∨ c = '.' ∨ c = '"'

/-- Python `str.strip()` (whitespace from both ends). -/
def stripWs (s : Str) : Str :=
  ((s.dropWhile (fun c => isSpaceC c)).reverse.dropWhile (fun c => isSpaceC c)).reverse

/-- Python `str.strip(chars)` for a single character. -/
def stripChar (ch : Char) (s : Str) : Str :=
  ((s.dropWhile (· = ch)).reverse.dropWhile (· = ch)).reverse

/-- Python `str.split()` (split on whitespace runs, dropping empties). -/
def splitWs (s : Str) : List Str :=
  (s.splitOnP (fun c => isSpaceC c)).filter (· ≠ [])

/-- Python `" ".join(xs)`. -/
def joinSpace (xs : List Str) : Str :=
  match xs with
  | [] => []
  | x :: rest => rest.foldl (fun acc y => acc ++ [' '] ++ y) x

/-- Python `" ".join(s.split())`: collapse whitespace runs to single spaces. -/
def wsNormalize (s : Str) : Str := joinSpace (splitWs s)

/-- Python `sep.join`-style split on a separator character, keeping empties
(`str.split(',')`). -/
def splitOnC (ch : Char) (s : Str) : List Str := s.splitOn ch

/-- Python `sub in s` (substring containment). -/
def containsSub (s pat : Str) : Bool :=
  match s with
  | [] => pat = []
  | _ :: rest => pat.isPrefixOf s || containsSub rest pat

/-- Python `s.startswith(pat)`. -/
def startsWith (s pat : Str) : Bool := pat.isPrefixOf s

/-- Python `s.endswith(pat)`. -/
def endsWith (s pat : Str) : Bool := pat.reverse.isPrefixOf s.reverse

/-- Fuel-indexed body of `replaceAll`; every step consumes at least one
character, so `s.length + 1` fuel always suffices. -/
def replaceAllF (old new : Str) : Nat → Str → Str
  | 0, s => s
  | _, [] => []
  | fuel + 1, c :: rest =>
    if old ≠ [] ∧ old.isPrefixOf (c :: rest) then
      new ++ replaceAllF old new fuel ((c :: rest).drop old.length)
    else
      c :: replaceAllF old new fuel rest

/-- Python `s.replace(old, new)` for a non-empty `old`: left-to-right,
non-overlapping replacement of every occurrence. -/
def replaceAll (old new : Str) (s : Str) : Str :=
  replaceAllF old new (s.length + 1) s

/-- Python `s.isdigit()` restricted to ASCII digits (the only digits the
source feeds it). -/
def isDigitS (s : Str) : Bool := s ≠ [] ∧ s.all (fun c => isDigitC c)

/-- Python `int(s)` on an ASCII digit string. -/
def natOfDigits (s : Str) : Nat := s.foldl (fun acc c => acc * 10 + (c.toNat - 48)) 0

/-- Python slice `s[a:b]`. -/
def slice (s : Str) (a b : Nat) : Str := (s.drop a).take (b - a)

/-- Python's `str(n)` for naturals (used when substituting type parameters). -/
def natToStr (n : Nat) : Str := lstr (toString n)

/-! ## A small backtracking matcher for the source's `re` patterns

The matcher enumerates all ways a pattern can match at a position, in the
priority order Python's backtracking engine explores them, so that the *head*
of the result list is exactly the match Python would pick.  Star bodies in the
source's patterns always consume at least one character, and the matcher
enforces that progress requirement, which also bounds the recursion. -/

/-- Pattern syntax.  Lazy repetition is `star true`; `lineEnd` is Python's `$`
(with or without `re.MULTILINE`); `look` is the zero-width `(?=...)`. -/
inductive Rx where
  | eps
  | cls (p : Char → Bool)
  | seq (a b : Rx)
  | alt (a b : Rx)
  | star (lzy : Bool) (a : Rx)
  | grp (n : Nat) (a : Rx)
  | look (a : Rx)
  | wordB
  | lineEnd (ml : Bool)

/-- Group captures: `(group number, start, stop)`, most recent first. -/
abbrev Caps := List (Nat × Nat × Nat)

def capSpan (c : Caps) (n : Nat) : Option (Nat × Nat) :=
  (c.find? (fun e => e.1 = n)).map (fun e => (e.2.1, e.2.2))

def nthc (s : Str) (i : Nat) : Option Char := s.get? i

/-- Is position `i` a `\b` word boundary of `s`? -/
def wordBoundAt (s : Str) (i : Nat) : Bool :=
  let w : Option Char → Bool := fun o => (o.map isWordC).getD false
  w (if i = 0 then none else nthc s (i - 1)) ≠ w (nthc s i)

/-- Python `$`: end of string, or just before a final newline; with
`re.MULTILINE`, also before any newline. -/
def lineEndAt (s : Str) (ml : Bool) (i : Nat) : Bool :=
  i = s.length ∨ (nthc s i = some '\n' ∧ (ml ∨ i = s.length - 1))

/-- Node count of a pattern, used to compute a sufficient fuel bound. -/
def rxSize : Rx → Nat
  | .eps => 1
  | .cls _ => 1
  | .seq a b => rxSize a + rxSize b + 1
  | .alt a b => rxSize a + rxSize b + 1
  | .star _ a => rxSize a + 1
  | .grp _ a => rxSize a + 1
  | .look a => rxSize a + 1
  | .wordB => 1
  | .lineEnd _ => 1

/-- All ways `r` can match `s` starting at `i`, as `(end, captures)` pairs in
backtracking priority order.  The recursion is structural in the fuel
argument; along any call path the fuel drops once per pattern node plus once
per star unfolding, and star unfoldings require strict progress, so
`(rxSize r + 2) * (s.length + 2)` fuel (what `rxMatchAt` supplies) can never
run out. -/
def Rx.mtch (s : Str) : Nat → Rx → Nat → Caps → List (Nat × Caps)
  | 0, _, _, _ => []
  | fuel + 1, rx, i, c =>
    match rx with
    | .eps => [(i, c)]
    | .cls p =>
      match nthc s i with
      | some ch => if p ch then [(i + 1, c)] else []
      | none => []
    | .seq a b => (Rx.mtch s fuel a i c).flatMap (fun jc => Rx.mtch s fuel b jc.1 jc.2)
    | .alt a b => Rx.mtch s fuel a i c ++ Rx.mtch s fuel b i c
    | .star lzy a =>
      let exts :=
        ((Rx.mtch s fuel a i c).filter (fun jc => i < jc.1)).flatMap
          (fun jc => Rx.mtch s fuel (.star lzy a) jc.1 jc.2)
      if lzy then (i, c) :: exts else exts ++ [(i, c)]
    | .grp n a => (Rx.mtch s fuel a i c).map (fun jc => (jc.1, (n, i, jc.1) :: jc.2))
    | .look a => if (Rx.mtch s fuel a i c).isEmpty then [] else [(i, c)]
    | .wordB => if wordBoundAt s i then [(i, c)] else []
    | .lineEnd ml => if lineEndAt s ml i then [(i, c)] else []

/-- `re.match`-style anchored attempt at position `i`; Python's choice is the
head of the priority list. -/
def rxMatchAt (r : Rx) (s : Str) (i : Nat) : Option (Nat × Caps) :=
  (Rx.mtch s ((rxSize r + 2) * (s.length + 2)) r i []).head?

/-- `re.search` from position `i`: the first position admitting a match; at
most `s.length + 1` positions are attempted. -/
def rxSearchFromF (r : Rx) (s : Str) : Nat → Nat → Option (Nat × Nat × Caps)
  | 0, _ => none
  | fuel + 1, i =>
    match rxMatchAt r s i with
    | some jc => some (i, jc.1, jc.2)
    | none => if i < s.length then rxSearchFromF r s fuel (i + 1) else none

def rxSearchFrom (r : Rx) (s : Str) (i : Nat) : Option (Nat × Nat × Caps) :=
  rxSearchFromF r s (s.length + 1) i

def rxSearch (r : Rx) (s : Str) : Option (Nat × Nat × Caps) := rxSearchFrom r s 0

/-- `re.finditer`: non-overlapping matches, scanning left to right.  All the
patterns the source iterates match at least one character, and the fuel
argument makes the recursion structural. -/
def rxFindIterAux (r : Rx) (s : Str) (i : Nat) (fuel : Nat) :
    List (Nat × Nat × Caps) :=
  match fuel with
  | 0 => []
  | fuel + 1 =>
    match rxSearchFrom r s i with
    | none => []
    | some (b, e, c) => (b, e, c) :: rxFindIterAux r s (max e (b + 1)) fuel

def rxFindIter (r : Rx) (s : Str) : List (Nat × Nat × Caps) :=
  rxFindIterAux r s 0 (s.length + 1)

/-- The text of group `n` of a match over `s` (`None` when the group did not
participate in the match). -/
def capStr (s : Str) (c : Caps) (n : Nat) : Option Str :=
  (capSpan c n).map (fun ab => slice s ab.1 ab.2)

/-- `re.sub`: replace every match of `r` in `s` by `tmpl` applied to the
match's captures (Python replacement templates with group references are
expressed as such functions). -/
def rxSubAux (r : Rx) (tmpl : Str → Caps → Str) (s : Str) (i : Nat) (fuel : Nat) :
    Str :=
  match fuel with
  | 0 => s.drop i
  | fuel + 1 =>
    match rxSearchFrom r s i with
    | none => s.drop i
    | some (b, e, c) =>
      if e ≤ b then
        -- never hit by the source's patterns (all match ≥ 1 char)
        slice s i (b + 1) ++ rxSubAux r tmpl s (b + 1) fuel
      else
        slice s i b ++ tmpl s c ++ rxSubAux r tmpl s e fuel

def rxSub (r : Rx) (tmpl : Str → Caps → Str) (s : Str) : Str :=
  rxSubAux r tmpl s 0 (s.length + 1)

/-! ### Pattern-building shorthands -/

/-- Case-insensitive single character. -/
def ciC (ch : Char) : Rx := .cls (fun c => lowC c = lowC ch)

/-- Case-sensitive literal. -/
def litS (w : String) : Rx :=
  w.toList.foldr (fun ch acc => Rx.seq (.cls (fun c => c = ch)) acc) .eps

/-- Case-insensitive literal. -/
def litCI (w : String) : Rx :=
  w.toList.foldr (fun ch acc => Rx.seq (ciC ch) acc) .eps

def rxCat (l : List Rx) : Rx := l.foldr Rx.seq .eps

def rxAlts (l : List Rx) : Rx :=
  match l with
  | [] => .eps
  | [r] => r
  | r :: rest => .alt r (rxAlts rest)

/-- `x?` (greedy when `g`). -/
def rxOpt (g : Bool) (a : Rx) : Rx := if g then .alt a .eps else .alt .eps a

/-- `x+` (lazy when `lzy`). -/
def rxPlus (lzy : Bool) (a : Rx) : Rx := .seq a (.star lzy a)

/-- `.` without `re.DOTALL`. -/
def dotC : Rx := .cls (fun c => c ≠ '\n')

/-- `.` with `re.DOTALL`. -/
def dotAll : Rx := .cls (fun _ => true)

def wsC : Rx := .cls (fun c => isSpaceC c)
def wordC : Rx := .cls (fun c => isWordC c)
def digitC : Rx := .cls (fun c => isDigitC c)
def sPlus : Rx := rxPlus false wsC
def sStar : Rx := .star false wsC

/-- Lookup in an association list with `Str` keys (Python `dict.get`). -/
def lookupS {β : Type} (l : List (Str × β)) (k : Str) : Option β :=
  (l.find? (fun e => e.1 = k)).map (fun e => e.2)

/-- Python dict insertion `d[k] = v`: overwrite in place when the key exists,
otherwise append. -/
def upsertS {β : Type} (l : List (Str × β)) (k : Str) (v : β) : List (Str × β) :=
  if (l.find? (fun e => e.1 = k)).isSome then
    l.map (fun e => if e.1 = k then (k, v) else e)
  else
    l ++ [(k, v)]

/-! ## `type_mapping.py` — the Oracle-to-multi-platform type-mapping engine -/

/-- `CanonicalDataType` (`type_mapping.py`). -/
inductive CanonicalDataType where
  | INTEGER | BIGINT | SMALLINT | TINYINT | DECIMAL | NUMERIC | FLOAT | REAL | MONEY
  | STRING | VARCHAR | NVARCHAR | CHAR | NCHAR | TEXT | CLOB | NCLOB
  | DATETIME | DATE | TIME | TIMESTAMP | INTERVAL
  | BINARY | VARBINARY | BLOB | RAW
  | BOOLEAN
  | ROWID | UROWID | REF_CURSOR | XMLTYPE | JSON | UNKNOWN
deriving DecidableEq, Fintype

/-- `ConversionRisk` (`type_mapping.py`); carried for data-model completeness. -/
inductive ConversionRisk where
  | NONE | LOW | MEDIUM | HIGH | UNSAFE
deriving DecidableEq

/-- `TargetPlatform` (`type_mapping.py`). -/
inductive TargetPlatform where
  | SQL_SERVER | POSTGRESQL | MYSQL | ORACLE | SNOWFLAKE | BIGQUERY | AZURE_SYNAPSE
deriving DecidableEq, Fintype

/-- `TargetPlatform.value` strings. -/
def TargetPlatform.val : TargetPlatform → Str
  | .SQL_SERVER => lstr "sql_server"
  | .POSTGRESQL => lstr "postgresql"
  | .MYSQL => lstr "mysql"
  | .ORACLE => lstr "oracle"
  | .SNOWFLAKE => lstr "snowflake"
  | .BIGQUERY => lstr "bigquery"
  | .AZURE_SYNAPSE => lstr "azure_synapse"

/-- `TargetPlatform(value)` construction (raises on unknown → `none`). -/
def platformOfStr (s : Str) : Option TargetPlatform :=
  if s = lstr "sql_server" then some .SQL_SERVER
  else if s = lstr "postgresql" then some .POSTGRESQL
  else if s = lstr "mysql" then some .MYSQL
  else if s = lstr "oracle" then some .ORACLE
  else if s = lstr "snowflake" then some .SNOWFLAKE
  else if s = lstr "bigquery" then some .BIGQUERY
  else if s = lstr "azure_synapse" then some .AZURE_SYNAPSE
  else none

/-- `_build_plsql_canonical_mapping`. -/
def plsqlToCanonical : List (Str × CanonicalDataType) := [
  (lstr "NUMBER", .DECIMAL), (lstr "INTEGER", .INTEGER), (lstr "INT", .INTEGER),
  (lstr "SMALLINT", .SMALLINT), (lstr "DECIMAL", .DECIMAL), (lstr "DEC", .DECIMAL),
  (lstr "NUMERIC", .NUMERIC), (lstr "FLOAT", .FLOAT), (lstr "REAL", .REAL),
  (lstr "DOUBLE PRECISION", .FLOAT), (lstr "BINARY_FLOAT", .REAL),
  (lstr "BINARY_DOUBLE", .FLOAT), (lstr "PLS_INTEGER", .INTEGER),
  (lstr "BINARY_INTEGER", .INTEGER),
  (lstr "VARCHAR2", .VARCHAR), (lstr "VARCHAR", .VARCHAR), (lstr "CHAR", .CHAR),
  (lstr "NCHAR", .NCHAR), (lstr "NVARCHAR2", .NVARCHAR), (lstr "CLOB", .CLOB),
  (lstr "NCLOB", .NCLOB), (lstr "LONG", .TEXT),
  (lstr "DATE", .DATETIME), (lstr "TIMESTAMP", .TIMESTAMP),
  (lstr "TIMESTAMP WITH TIME ZONE", .TIMESTAMP),
  (lstr "TIMESTAMP WITH LOCAL TIME ZONE", .TIMESTAMP),
  (lstr "INTERVAL YEAR TO MONTH", .INTERVAL), (lstr "INTERVAL DAY TO SECOND", .INTERVAL),
  (lstr "RAW", .RAW), (lstr "LONG RAW", .VARBINARY), (lstr "BLOB", .BLOB),
  (lstr "BFILE", .BLOB),
  (lstr "BOOLEAN", .BOOLEAN),
  (lstr "ROWID", .ROWID), (lstr "UROWID", .UROWID), (lstr "REF CURSOR", .REF_CURSOR),
  (lstr "SYS_REFCURSOR", .REF_CURSOR), (lstr "XMLTYPE", .XMLTYPE), (lstr "JSON", .JSON)]

/-- `_build_platform_mappings` (a `dict.get(canonical, {})`-style lookup). -/
def canonicalToPlatforms (c : CanonicalDataType) : List (TargetPlatform × Str) :=
  match c with
  | .INTEGER => [(.SQL_SERVER, lstr "int"), (.POSTGRESQL, lstr "integer"),
      (.MYSQL, lstr "int"), (.ORACLE, lstr "number(10)"),
      (.SNOWFLAKE, lstr "number(38,0)"), (.BIGQUERY, lstr "int64"),
      (.AZURE_SYNAPSE, lstr "int")]
  | .DECIMAL => [(.SQL_SERVER, lstr "decimal({precision},{scale})"),
      (.POSTGRESQL, lstr "decimal({precision},{scale})"),
      (.MYSQL, lstr "decimal({precision},{scale})"),
      (.ORACLE, lstr "number({precision},{scale})"),
      (.SNOWFLAKE, lstr "number({precision},{scale})"),
      (.BIGQUERY, lstr "numeric({precision},{scale})"),
      (.AZURE_SYNAPSE, lstr "decimal({precision},{scale})")]
  | .VARCHAR => [(.SQL_SERVER, lstr "varchar({length})"),
      (.POSTGRESQL, lstr "varchar({length})"), (.MYSQL, lstr "varchar({length})"),
      (.ORACLE, lstr "varchar2({length})"), (.SNOWFLAKE, lstr "varchar({length})"),
      (.BIGQUERY, lstr "string"), (.AZURE_SYNAPSE, lstr "varchar({length})")]
  | .NVARCHAR => [(.SQL_SERVER, lstr "nvarchar({length})"),
      (.POSTGRESQL, lstr "varchar({length})"), (.MYSQL, lstr "varchar({length})"),
      (.ORACLE, lstr "nvarchar2({length})"), (.SNOWFLAKE, lstr "varchar({length})"),
      (.BIGQUERY, lstr "string"), (.AZURE_SYNAPSE, lstr "nvarchar({length})")]
  | .DATETIME => [(.SQL_SERVER, lstr "datetime2"), (.POSTGRESQL, lstr "timestamp"),
      (.MYSQL, lstr "datetime"), (.ORACLE, lstr "date"),
      (.SNOWFLAKE, lstr "timestamp"), (.BIGQUERY, lstr "datetime"),
      (.AZURE_SYNAPSE, lstr "datetime2")]
  | .TIMESTAMP => [(.SQL_SERVER, lstr "datetime2"),
      (.POSTGRESQL, lstr "timestamp with time zone"), (.MYSQL, lstr "timestamp"),
      (.ORACLE, lstr "timestamp"), (.SNOWFLAKE, lstr "timestamp"),
      (.BIGQUERY, lstr "timestamp"), (.AZURE_SYNAPSE, lstr "datetime2")]
  | .BOOLEAN => [(.SQL_SERVER, lstr "bit"), (.POSTGRESQL, lstr "boolean"),
      (.MYSQL, lstr "boolean"), (.ORACLE, lstr "number(1)"),
      (.SNOWFLAKE, lstr "boolean"), (.BIGQUERY, lstr "bool"),
      (.AZURE_SYNAPSE, lstr "bit")]
  | .CLOB => [(.SQL_SERVER, lstr "nvarchar(max)"), (.POSTGRESQL, lstr "text"),
      (.MYSQL, lstr "longtext"), (.ORACLE, lstr "clob"),
      (.SNOWFLAKE, lstr "varchar"), (.BIGQUERY, lstr "string"),
      (.AZURE_SYNAPSE, lstr "nvarchar(max)")]
  | .BLOB => [(.SQL_SERVER, lstr "varbinary(max)"), (.POSTGRESQL, lstr "bytea"),
      (.MYSQL, lstr "longblob"), (.ORACLE, lstr "blob"),
      (.SNOWFLAKE, lstr "binary"), (.BIGQUERY, lstr "bytes"),
      (.AZURE_SYNAPSE, lstr "varbinary(max)")]
  | .ROWID => [(.SQL_SERVER, lstr "uniqueidentifier"), (.POSTGRESQL, lstr "varchar(18)"),
      (.MYSQL, lstr "varchar(18)"), (.ORACLE, lstr "rowid"),
      (.SNOWFLAKE, lstr "varchar(18)"), (.BIGQUERY, lstr "string"),
      (.AZURE_SYNAPSE, lstr "varchar(18)")]
  | _ => []

/-- The result of `parse_oracle_type`: a Python dict whose optional keys are
modelled as `Option` fields (`none` = key absent). -/
structure TypeInfo where
  base_type : Str
  length : Option Nat := none
  precision : Option Nat := none
  scale : Option Nat := none
  nullable : Option Bool := none
  has_default : Option Bool := none
deriving DecidableEq

/-- The pattern `^(\w+(?:\s+\w+)*?)(?:\(([^)]+)\))?(?:\s+(.*))?$` of
`parse_oracle_type`. -/
def oracleTypeRx : Rx := rxCat [
  .grp 1 (.seq (rxPlus false wordC) (.star true (.seq sPlus (rxPlus false wordC)))),
  rxOpt true (rxCat [.cls (· = '('), .grp 2 (rxPlus false (.cls (· ≠ ')'))), .cls (· = ')')]),
  rxOpt true (.seq sPlus (.grp 3 (.star false dotC))),
  .lineEnd false]

/-- `PLSQLDataTypeMapper.parse_oracle_type`. -/
def parseOracleType (typeDeclaration : Str) : TypeInfo :=
  if typeDeclaration = [] then { base_type := lstr "UNKNOWN" }
  else
    let typeDecl := upS (stripWs typeDeclaration)
    match rxMatchAt oracleTypeRx typeDecl 0 with
    | none => { base_type := typeDecl }
    | some m =>
      let baseType := (capStr typeDecl m.2 1).getD []
      let params := capStr typeDecl m.2 2
      let modifiers := capStr typeDecl m.2 3
      let ti0 : TypeInfo := { base_type := baseType }
      let ti1 :=
        match params with
        | none => ti0
        | some ps =>
          let parts := (splitOnC ',' ps).map stripWs
          match parts with
          | [p0] =>
            if isDigitS p0 then
              let v := natOfDigits p0
              if ([lstr "VARCHAR2", lstr "VARCHAR", lstr "CHAR", lstr "NCHAR",
                    lstr "NVARCHAR2", lstr "RAW"] : List Str).contains baseType then
                { ti0 with length := some v }
              else if ([lstr "NUMBER", lstr "DECIMAL", lstr "NUMERIC"] :
                  List Str).contains baseType then
                { ti0 with precision := some v }
              else if ([lstr "TIMESTAMP", lstr "INTERVAL"] : List Str).contains baseType then
                { ti0 with precision := some v }
              else ti0
            else ti0
          | [p0, p1] =>
            if isDigitS p0 ∧ isDigitS p1 then
              { ti0 with precision := some (natOfDigits p0), scale := some (natOfDigits p1) }
            else ti0
          | _ => ti0
      match modifiers with
      | none => ti1
      | some mods =>
        if mods = [] then ti1  -- empty string is falsy in Python
        else
          let ti2 := if containsSub mods (lstr "NOT NULL") then
              { ti1 with nullable := some false } else ti1
          if containsSub mods (lstr "DEFAULT") then
            { ti2 with has_default := some true } else ti2

/-- `PLSQLDataTypeMapper.get_canonical_type`. -/
def getCanonicalType (oracleType : Str) : CanonicalDataType :=
  if oracleType = [] then .UNKNOWN
  else
    let typeInfo := parseOracleType oracleType
    let baseType := upS typeInfo.base_type
    (lookupS plsqlToCanonical baseType).getD .UNKNOWN

/-- One placeholder substitution step of `get_platform_type`: substituted only
when the placeholder occurs and the argument is truthy (present and nonzero). -/
def substPlaceholder (ph : Str) (v : Option Nat) (t : Str) : Str :=
  match v with
  | some n => if containsSub t ph ∧ n ≠ 0 then replaceAll ph (natToStr n) t else t
  | none => t

/-- The `platform_mapping.get(platform, "unknown")` template lookup of
`get_platform_type`. -/
def platformTemplate (canonical : CanonicalDataType) (platform : TargetPlatform) : Str :=
  (((canonicalToPlatforms canonical).find?
      (fun e => e.1 = platform)).map (fun e => e.2)).getD (lstr "unknown")

/-- `PLSQLDataTypeMapper.get_platform_type`. -/
def getPlatformType (canonical : CanonicalDataType) (platform : TargetPlatform)
    (length precision scale : Option Nat) : Str :=
  let t1 := substPlaceholder (lstr "{length}") length (platformTemplate canonical platform)
  let t2 := substPlaceholder (lstr "{precision}") precision t1
  substPlaceholder (lstr "{scale}") scale t2

/-- `_get_type_category`. -/
def typeCategory (c : CanonicalDataType) : Str :=
  let numericT : List CanonicalDataType := [.INTEGER, .BIGINT, .SMALLINT, .TINYINT,
    .DECIMAL, .NUMERIC, .FLOAT, .REAL, .MONEY]
  let stringT : List CanonicalDataType := [.STRING, .VARCHAR, .NVARCHAR, .CHAR,
    .NCHAR, .TEXT, .CLOB, .NCLOB]
  let datetimeT : List CanonicalDataType := [.DATETIME, .DATE, .TIME, .TIMESTAMP, .INTERVAL]
  let binaryT : List CanonicalDataType := [.BINARY, .VARBINARY, .BLOB, .RAW]
  if numericT.contains c then lstr "numeric"
  else if stringT.contains c then lstr "string"
  else if datetimeT.contains c then lstr "datetime"
  else if binaryT.contains c then lstr "binary"
  else if c = .BOOLEAN then lstr "boolean"
  else lstr "oracle_special"

/-- `_supports_indexing`. -/
def supportsIndexing (c : CanonicalDataType) : Bool :=
  ¬ ([CanonicalDataType.CLOB, .NCLOB, .BLOB, .XMLTYPE, .JSON].contains c)

/-- `_supports_sorting`. -/
def supportsSorting (c : CanonicalDataType) : Bool :=
  ¬ ([CanonicalDataType.BLOB, .XMLTYPE, .JSON, .REF_CURSOR].contains c)

/-- `_is_oracle_specific`. -/
def isOracleSpecific (c : CanonicalDataType) : Bool :=
  ([CanonicalDataType.ROWID, .UROWID, .REF_CURSOR, .INTERVAL].contains c)

/-- The dict returned by `enrich_column_properties` (`column_name` is the key
`detect_column_types_from_sql` adds afterwards). -/
structure EnrichedColumn where
  oracle_native_type : Str
  parsed_type_info : TypeInfo
  canonical_type : CanonicalDataType
  target_types : List (Str × Str)
  type_precision : Option Nat
  type_scale : Option Nat
  type_length : Option Nat
  nullable : Option Bool
  default_value : Option Str
  conversion_confidence : ℚ
  potential_issues : List Str
  type_category : Str
  supports_indexing : Bool
  supports_sorting : Bool
  oracle_specific : Bool
  column_name : Option Str := none
deriving DecidableEq

/-- Python's `min` on the rational confidence values, written with a
kernel-reducible comparison. -/
def qmin (a b : ℚ) : ℚ := if a ≤ b then a else b

theorem qmin_le_left (a b : ℚ) : qmin a b ≤ a := by
  unfold qmin; split
  · exact le_refl a
  · exact le_of_not_le ‹¬ a ≤ b›

theorem qmin_le_right (a b : ℚ) : qmin a b ≤ b := by
  unfold qmin; split
  · assumption
  · exact le_refl b

theorem le_qmin {a b c : ℚ} (h1 : c ≤ a) (h2 : c ≤ b) : c ≤ qmin a b := by
  unfold qmin; split
  · exact h1
  · exact h2

theorem qmin_eq_left {a b : ℚ} (h : a ≤ b) : qmin a b = a := by
  unfold qmin; exact if_pos h

/-- Python float addition on the confidence values, as exact rational
arithmetic written with kernel-reducible operations. -/
def qadd (a b : ℚ) : ℚ := mkRat (a.num * b.den + b.num * a.den) (a.den * b.den)

/-- Python float division by a positive integer (list length), as exact
rational arithmetic written with kernel-reducible operations. -/
def qdivN (a : ℚ) (n : Nat) : ℚ := mkRat a.num (a.den * n)

/-- The body of the `for platform in target_platforms` loop of
`enrich_column_properties`; the accumulator is
`(target_types, conversion_confidence, potential_issues)`. -/
def enrichPlatformStep (canonicalType : CanonicalDataType) (typeInfo : TypeInfo)
    (acc : List (Str × Str) × ℚ × List Str) (p : TargetPlatform) :
    List (Str × Str) × ℚ × List Str :=
  let platformType := getPlatformType canonicalType p typeInfo.length
    typeInfo.precision typeInfo.scale
  let targetTypes := upsertS acc.1 p.val platformType
  if platformType = lstr "unknown" then
    (targetTypes, qmin acc.2.1 (mkRat 1 2),
      acc.2.2 ++ [lstr "No mapping defined for " ++ p.val])
  else
    (targetTypes, acc.2.1, acc.2.2)

/-- `PLSQLDataTypeMapper.enrich_column_properties`. -/
def enrichColumnProperties (oracleType : Str) (nullable : Option Bool := none)
    (defaultValue : Option Str := none)
    (targetPlatforms : Option (List TargetPlatform) := none) : EnrichedColumn :=
  let typeInfo := parseOracleType oracleType
  let canonicalType := getCanonicalType oracleType
  let platforms := targetPlatforms.getD [.SQL_SERVER, .POSTGRESQL, .MYSQL]
  let afterLoop := platforms.foldl (enrichPlatformStep canonicalType typeInfo)
    ([], mkRat 1 1, [])
  let targetTypes := afterLoop.1
  let c0 := afterLoop.2.1
  let issues0 := afterLoop.2.2
  let c1 := if canonicalType = .UNKNOWN then mkRat 3 10 else c0
  let issues1 := if canonicalType = .UNKNOWN then
      issues0 ++ [lstr "Unknown Oracle type: " ++ oracleType] else issues0
  let oracleSpecialHit :=
    ([CanonicalDataType.ROWID, .UROWID, .REF_CURSOR, .XMLTYPE].contains canonicalType)
  let c2 := if oracleSpecialHit then qmin c1 (mkRat 7 10) else c1
  let issues2 := if oracleSpecialHit then
      issues1 ++ [lstr "Oracle-specific type " ++ oracleType ++
        lstr " may require custom handling"]
    else issues1
  let bigLength := typeInfo.length.getD 0 > 4000
  let c3 := if bigLength then qmin c2 (mkRat 4 5) else c2
  let issues3 := if bigLength then
      issues2 ++ [lstr "Large column length may require CLOB/TEXT type"] else issues2
  { oracle_native_type := oracleType
    parsed_type_info := typeInfo
    canonical_type := canonicalType
    target_types := targetTypes
    type_precision := typeInfo.precision
    type_scale := typeInfo.scale
    type_length := typeInfo.length
    nullable := nullable
    default_value := defaultValue
    conversion_confidence := c3
    potential_issues := issues3
    type_category := typeCategory canonicalType
    supports_indexing := supportsIndexing canonicalType
    supports_sorting := supportsSorting canonicalType
    oracle_specific := isOracleSpecific canonicalType }

/-- `--.*$` (MULTILINE, greedy) used by `detect_column_types_from_sql`. -/
def lineCommentGreedyRx : Rx :=
  rxCat [litS "--", .star false dotC, .lineEnd true]

/-- `/\*.*?\*/` (DOTALL). -/
def blockCommentRx : Rx :=
  rxCat [litS "/*", .star true dotAll, litS "*/"]

/-- `CREATE\s+TABLE\s+\w+\s*\((.*?)\)` (IGNORECASE, DOTALL). -/
def createTableDefRx : Rx := rxCat [
  litCI "CREATE", sPlus, litCI "TABLE", sPlus, rxPlus false wordC, sStar,
  .cls (· = '('), .grp 1 (.star true dotAll), .cls (· = ')')]

/-- The "smart about nested parentheses" comma split inside
`detect_column_types_from_sql`. -/
def balancedCommaSplit (tableDef : Str) : List Str :=
  ((tableDef ++ [',']).foldl
    (fun (acc : List Str × Str × Int) ch =>
      if ch = '(' then (acc.1, acc.2.1 ++ [ch], acc.2.2 + 1)
      else if ch = ')' then (acc.1, acc.2.1 ++ [ch], acc.2.2 - 1)
      else if ch = ',' ∧ acc.2.2 = 0 then
        (if stripWs acc.2.1 ≠ [] then acc.1 ++ [stripWs acc.2.1] else acc.1, [], acc.2.2)
      else (acc.1, acc.2.1 ++ [ch], acc.2.2))
    ([], [], 0)).1

/-- `(\w+)\s+(.+)` of the per-column match. -/
def colDefRx : Rx := rxCat [.grp 1 (rxPlus false wordC), sPlus, .grp 2 (rxPlus false dotC)]

/-- `detect_column_types_from_sql` (module-level function of `type_mapping.py`). -/
def detectColumnTypesFromSql (sqlStatement : Str) : List EnrichedColumn :=
  let sqlClean := rxSub lineCommentGreedyRx (fun _ _ => []) sqlStatement
  let sqlClean := rxSub blockCommentRx (fun _ _ => []) sqlClean
  let createMatches := (rxFindIter createTableDefRx sqlClean).filterMap
    (fun m => capStr sqlClean m.2.2 1)
  createMatches.flatMap (fun tableDef =>
    (balancedCommaSplit tableDef).filterMap (fun colDef0 =>
      let colDef := stripWs colDef0
      if ([lstr "CONSTRAINT", lstr "PRIMARY KEY", lstr "FOREIGN KEY", lstr "CHECK",
          lstr "UNIQUE"].any (fun kw => containsSub (upS colDef) kw)) then
        none
      else
        match rxMatchAt colDefRx colDef 0 with
        | none => none
        | some m =>
          let colName := stripWs ((capStr colDef m.2 1).getD [])
          let colType := stripWs ((capStr colDef m.2 2).getD [])
          some { enrichColumnProperties colType with column_name := some colName }))

end Mz

namespace Mz

/-! ## `sql_semantics.py` — the SQL semantics analyzer -/

/-- `JoinType` (`sql_semantics.py`). -/
inductive JoinType where
  | INNER | LEFT | RIGHT | FULL | CROSS
deriving DecidableEq

/-- `JoinType.value` strings. -/
def JoinType.val : JoinType → Str
  | .INNER => lstr "INNER JOIN"
  | .LEFT => lstr "LEFT JOIN"
  | .RIGHT => lstr "RIGHT JOIN"
  | .FULL => lstr "FULL OUTER JOIN"
  | .CROSS => lstr "CROSS JOIN"

/-- `JoinType(raw)` construction (`ValueError` → `none`). -/
def joinTypeOfStr (s : Str) : Option JoinType :=
  if s = lstr "INNER JOIN" then some .INNER
  else if s = lstr "LEFT JOIN" then some .LEFT
  else if s = lstr "RIGHT JOIN" then some .RIGHT
  else if s = lstr "FULL OUTER JOIN" then some .FULL
  else if s = lstr "CROSS JOIN" then some .CROSS
  else none

/-- `TableReference`. -/
structure TableReference where
  name : Str
  aliasName : Option Str := none
  schema : Option Str := none
deriving DecidableEq

/-- `TableReference.full_name`. -/
def TableReference.fullName (t : TableReference) : Str :=
  match t.schema with
  | some sc => sc ++ [ '.' ] ++ t.name
  | none => t.name

/-- `JoinRelationship`. -/
structure JoinRelationship where
  join_type : JoinType
  left_table : TableReference
  right_table : TableReference
  condition : Str
  raw_condition : Str
deriving DecidableEq

/-- `ColumnExpression`. -/
structure ColumnExpression where
  expression : Str
  aliasName : Option Str := none
  source_table : Option Str := none
  source_alias : Option Str := none
  column_name : Option Str := none
deriving DecidableEq

/-- `InlineView`. -/
structure InlineView where
  aliasName : Str
  sql : Str
  base_tables : List Str
deriving DecidableEq

/-- `SqlSemantics`. -/
structure SqlSemantics where
  original_query : Str
  tables : List TableReference
  joins : List JoinRelationship
  columns : List ColumnExpression
  inline_views : List InlineView
  where_clause : Option Str := none
deriving DecidableEq

/-- `EnhancedPlsqlParser.SQL_KEYWORDS`. -/
def SQL_KEYWORDS : List Str := [
  lstr "select", lstr "from", lstr "where", lstr "join", lstr "inner", lstr "left",
  lstr "right", lstr "full", lstr "outer",
  lstr "union", lstr "order", lstr "group", lstr "by", lstr "having", lstr "distinct",
  lstr "as", lstr "on", lstr "and", lstr "or",
  lstr "not", lstr "in", lstr "exists", lstr "case", lstr "when", lstr "then",
  lstr "else", lstr "end", lstr "null", lstr "is",
  lstr "between", lstr "like", lstr "into", lstr "values", lstr "insert",
  lstr "update", lstr "delete", lstr "merge",
  lstr "create", lstr "alter", lstr "drop", lstr "table", lstr "view", lstr "index",
  lstr "sequence", lstr "constraint",
  lstr "primary", lstr "key", lstr "foreign", lstr "references", lstr "unique",
  lstr "check", lstr "default",
  lstr "varchar2", lstr "number", lstr "date", lstr "timestamp", lstr "char",
  lstr "clob", lstr "blob", lstr "rowid",
  lstr "dual", lstr "sysdate", lstr "systimestamp", lstr "rownum", lstr "nextval",
  lstr "currval"]

/-- `EnhancedPlsqlParser.ORACLE_FUNCTIONS` (the semantics analyzer's set). -/
def ORACLE_FUNCTIONS_SEM : List Str := [
  lstr "to_date", lstr "to_char", lstr "to_number", lstr "extract", lstr "substr",
  lstr "length", lstr "instr",
  lstr "upper", lstr "lower", lstr "initcap", lstr "trim", lstr "ltrim", lstr "rtrim",
  lstr "replace", lstr "translate",
  lstr "decode", lstr "nvl", lstr "nvl2", lstr "coalesce", lstr "nullif",
  lstr "greatest", lstr "least",
  lstr "abs", lstr "ceil", lstr "floor", lstr "round", lstr "trunc", lstr "mod",
  lstr "power", lstr "sqrt", lstr "sign",
  lstr "sin", lstr "cos", lstr "tan", lstr "asin", lstr "acos", lstr "atan",
  lstr "atan2", lstr "exp", lstr "ln", lstr "log",
  lstr "avg", lstr "count", lstr "max", lstr "min", lstr "sum", lstr "stddev",
  lstr "variance",
  lstr "rank", lstr "dense_rank", lstr "row_number", lstr "lead", lstr "lag",
  lstr "first_value", lstr "last_value",
  lstr "sysdate", lstr "systimestamp", lstr "current_date", lstr "current_timestamp",
  lstr "localtimestamp",
  lstr "add_months", lstr "months_between", lstr "next_day", lstr "last_day",
  lstr "trunc_date"]

/-- `\s*INTO\s+[^F\s]+(?=\s+FROM)` (IGNORECASE) of `_normalize_sql`;
with IGNORECASE the class `[^F\s]` excludes both cases of `f`. -/
def normIntoRx : Rx := rxCat [
  sStar, litCI "INTO", sPlus,
  rxPlus false (.cls (fun c => ¬ (lowC c = 'f') ∧ ¬ (isSpaceC c = true))),
  .look (.seq sPlus (litCI "FROM"))]

/-- `\s*(,)\s*` of `_normalize_sql`. -/
def normCommaRx : Rx := rxCat [sStar, .grp 1 (.cls (· = ',')), sStar]

/-- `\s+(FROM|JOIN|WHERE|ON|AS|UNION|ORDER|GROUP)\s+` (IGNORECASE). -/
def normKwRx : Rx := rxCat [
  sPlus,
  .grp 1 (rxAlts [litCI "FROM", litCI "JOIN", litCI "WHERE", litCI "ON",
    litCI "AS", litCI "UNION", litCI "ORDER", litCI "GROUP"]),
  sPlus]

/-- `EnhancedPlsqlParser._normalize_sql`. -/
def normalizeSql (sql : Str) : Str :=
  let sql := wsNormalize sql
  let sql := rxSub normIntoRx (fun _ _ => [' ']) sql
  let sql := rxSub normCommaRx (fun s caps => ((capStr s caps 1).getD []) ++ [' ']) sql
  let sql := rxSub normKwRx
    (fun s caps => [' '] ++ ((capStr s caps 1).getD []) ++ [' ']) sql
  stripWs sql

/-- `FROM\s+(?:(\w+)\.)?(\w+)(?:\s+(?:AS\s+)?(\w+))?` (IGNORECASE). -/
def fromTableRx : Rx := rxCat [
  litCI "FROM", sPlus,
  rxOpt true (.seq (.grp 1 (rxPlus false wordC)) (.cls (· = '.'))),
  .grp 2 (rxPlus false wordC),
  rxOpt true (rxCat [sPlus, rxOpt true (.seq (litCI "AS") sPlus),
    .grp 3 (rxPlus false wordC)])]

/-- `(?:INNER\s+|LEFT\s+|RIGHT\s+|FULL\s+OUTER\s+|CROSS\s+)?JOIN\s+(?:(\w+)\.)?(\w+)(?:\s+(?:AS\s+)?(\w+))?` (IGNORECASE). -/
def joinTableRx : Rx := rxCat [
  rxOpt true (rxAlts [.seq (litCI "INNER") sPlus, .seq (litCI "LEFT") sPlus,
    .seq (litCI "RIGHT") sPlus, rxCat [litCI "FULL", sPlus, litCI "OUTER", sPlus],
    .seq (litCI "CROSS") sPlus]),
  litCI "JOIN", sPlus,
  rxOpt true (.seq (.grp 1 (rxPlus false wordC)) (.cls (· = '.'))),
  .grp 2 (rxPlus false wordC),
  rxOpt true (rxCat [sPlus, rxOpt true (.seq (litCI "AS") sPlus),
    .grp 3 (rxPlus false wordC)])]

/-- Keyword-aliasV validation shared by all extraction paths: an aliasV equal to
a SQL keyword is discarded. -/
def cleanAlias (aliasV : Option Str) : Option Str :=
  match aliasV with
  | some a => if SQL_KEYWORDS.contains (lowS a) then none else some a
  | none => none

/-- `EnhancedPlsqlParser._extract_table_references_regex`. -/
def tableRefsRegex (sql : Str) : List TableReference :=
  let fromTables :=
    match rxSearch fromTableRx sql with
    | none => []
    | some m =>
      let schema := capStr sql m.2.2 1
      let tableName := (capStr sql m.2.2 2).getD []
      let aliasV := capStr sql m.2.2 3
      if tableName ≠ [] ∧ ¬ ORACLE_FUNCTIONS_SEM.contains (lowS tableName) then
        [{ name := tableName, schema := schema, aliasName := cleanAlias aliasV }]
      else []
  let joinTables := (rxFindIter joinTableRx sql).filterMap (fun m =>
    let schema := capStr sql m.2.2 1
    let tableName := (capStr sql m.2.2 2).getD []
    let aliasV := capStr sql m.2.2 3
    if tableName ≠ [] ∧ ¬ ORACLE_FUNCTIONS_SEM.contains (lowS tableName) then
      some { name := tableName, schema := schema,
             aliasName := cleanAlias aliasV : TableReference }
    else none)
  fromTables ++ joinTables

/-- The join-relationship pattern of `_extract_join_relationships_regex`
(IGNORECASE, DOTALL):
`((?:INNER\s+|LEFT\s+|RIGHT\s+|FULL\s+OUTER\s+|CROSS\s+)?JOIN)\s+(?:(\w+)\.)?(\w+)(?:\s+(?:AS\s+)?(\w+))?\s+ON\s+([^$]+?)(?=\s*(?:INNER|LEFT|RIGHT|FULL|CROSS|WHERE|ORDER|GROUP|HAVING|$))`. -/
def joinRelRx : Rx := rxCat [
  .grp 1 (.seq
    (rxOpt true (rxAlts [.seq (litCI "INNER") sPlus, .seq (litCI "LEFT") sPlus,
      .seq (litCI "RIGHT") sPlus, rxCat [litCI "FULL", sPlus, litCI "OUTER", sPlus],
      .seq (litCI "CROSS") sPlus]))
    (litCI "JOIN")),
  sPlus,
  rxOpt true (.seq (.grp 2 (rxPlus false wordC)) (.cls (· = '.'))),
  .grp 3 (rxPlus false wordC),
  rxOpt true (rxCat [sPlus, rxOpt true (.seq (litCI "AS") sPlus),
    .grp 4 (rxPlus false wordC)]),
  sPlus, litCI "ON", sPlus,
  .grp 5 (rxPlus true (.cls (· ≠ '$'))),
  .look (.seq sStar (rxAlts [litCI "INNER", litCI "LEFT", litCI "RIGHT",
    litCI "FULL", litCI "CROSS", litCI "WHERE", litCI "ORDER", litCI "GROUP",
    litCI "HAVING", .lineEnd false]))]

/-- `EnhancedPlsqlParser._extract_join_relationships_regex`. -/
def joinRelsRegex (sql : Str) (tables : List TableReference) : List JoinRelationship :=
  (rxFindIter joinRelRx sql).filterMap (fun m =>
    let joinTypeRaw0 := upS (stripWs ((capStr sql m.2.2 1).getD []))
    let joinTypeRaw := if joinTypeRaw0 = lstr "JOIN" then lstr "INNER JOIN"
      else joinTypeRaw0
    let joinType := (joinTypeOfStr joinTypeRaw).getD .INNER
    let schema := capStr sql m.2.2 2
    let tableName := (capStr sql m.2.2 3).getD []
    let aliasV := capStr sql m.2.2 4
    let condition := stripWs ((capStr sql m.2.2 5).getD [])
    if tableName ≠ [] ∧ ¬ ORACLE_FUNCTIONS_SEM.contains (lowS tableName) then
      let rightTable : TableReference :=
        { name := tableName, schema := schema, aliasName := cleanAlias aliasV }
      let leftTable := (tables.head?).getD { name := lstr "Unknown" }
      if ¬ ORACLE_FUNCTIONS_SEM.contains (lowS leftTable.name) then
        some { join_type := joinType, left_table := leftTable,
               right_table := rightTable, condition := condition,
               raw_condition := condition }
      else none
    else none)

/-- `SELECT\s+(.*?)\s+FROM` (IGNORECASE, DOTALL). -/
def selectClauseRx : Rx :=
  rxCat [litCI "SELECT", sPlus, .grp 1 (.star true dotAll), sPlus, litCI "FROM"]

/-- `^(.+?)\s+AS\s+(\w+)$` (IGNORECASE). -/
def colAsRx : Rx := rxCat [
  .grp 1 (rxPlus true dotC), sPlus, litCI "AS", sPlus,
  .grp 2 (rxPlus false wordC), .lineEnd false]

/-- `^(\w+)\.(\w+)$`. -/
def tableColRx : Rx := rxCat [
  .grp 1 (rxPlus false wordC), .cls (· = '.'), .grp 2 (rxPlus false wordC),
  .lineEnd false]

/-- `EnhancedPlsqlParser._extract_column_expressions_regex`. -/
def columnExprsRegex (sql : Str) (tables : List TableReference) :
    List ColumnExpression :=
  match rxSearch selectClauseRx sql with
  | none => []
  | some m =>
    let selectClause := stripWs ((capStr sql m.2.2 1).getD [])
    if stripWs selectClause = lstr "*" then []
    else
      let columnExpressions := (splitOnC ',' selectClause).map stripWs
      let aliasToTable := tables.filterMap (fun t =>
        t.aliasName.map (fun a => (a, t.name)))
      columnExpressions.filterMap (fun expr =>
        if expr = [] then none
        else
          let asM := rxMatchAt colAsRx expr 0
          let sourceExpr := match asM with
            | some mm => stripWs ((capStr expr mm.2 1).getD [])
            | none => expr
          let aliasV := match asM with
            | some mm => capStr expr mm.2 2
            | none => none
          match rxMatchAt tableColRx sourceExpr 0 with
          | some tc =>
            let sourceAlias := capStr sourceExpr tc.2 1
            let columnName := capStr sourceExpr tc.2 2
            some { expression := expr, aliasName := aliasV,
                   source_table := sourceAlias.bind (fun a => lookupS aliasToTable a),
                   source_alias := sourceAlias, column_name := columnName }
          | none =>
            some { expression := expr, aliasName := aliasV, source_table := none,
                   source_alias := none, column_name := some sourceExpr })

/-- `WHERE\s+(.+?)(?:\s+(?:ORDER|GROUP|HAVING|$))` (IGNORECASE, DOTALL). -/
def whereClauseRx : Rx := rxCat [
  litCI "WHERE", sPlus, .grp 1 (rxPlus true dotAll),
  sPlus,
  rxAlts [litCI "ORDER", litCI "GROUP", litCI "HAVING", .lineEnd false]]

/-- `EnhancedPlsqlParser._extract_where_clause_regex`. -/
def whereClauseRegex (sql : Str) : Option Str :=
  (rxSearch whereClauseRx sql).map (fun m => stripWs ((capStr sql m.2.2 1).getD []))

/-- `EnhancedPlsqlParser._extract_semantics_with_regex`. -/
def extractSemanticsWithRegex (sql : Str) : SqlSemantics :=
  let tables := tableRefsRegex sql
  { original_query := sql
    tables := tables
    joins := joinRelsRegex sql tables
    columns := columnExprsRegex sql tables
    inline_views := []
    where_clause := whereClauseRegex sql }

/-- The outcome of `sqlglot.parse_one` composed with
`_extract_semantics_from_ast`: success, a falsy parse result, or a raised
exception. -/
inductive AstOutcome where
  | ok (sem : SqlSemantics)
  | falsy
  | raised

/-- The abstract environment standing for the optional `sqlglot` dependency:
whether the import succeeded, the AST-path result of
`parse_sql_semantics` per normalized statement, and the per-fragment check of
`_extract_sql_statements` (parse succeeds and yields a `SELECT`). -/
structure AstEnv where
  hasSqlglot : Bool
  ast : Str → AstOutcome
  selectOk : Str → Bool

/-- The shipped configuration: `sqlglot` is absent from the repository's
bundled virtual environment, so `import sqlglot` raises and
`_HAS_SQLGLOT = False` everywhere. -/
def noSqlglot : AstEnv := ⟨false, fun _ => .raised, fun _ => false⟩

/-- `EnhancedPlsqlParser.parse_sql_semantics` (value level; the mutable
validation-report counters it bumps do not feed back into any result). -/
def parseSqlSemanticsV (env : AstEnv) (sql : Str) : Option SqlSemantics :=
  if sql = [] then none
  else
    let s := normalizeSql sql
    if env.hasSqlglot then
      match env.ast s with
      | .ok sem => some sem
      | .falsy => some (extractSemanticsWithRegex s)
      | .raised => some (extractSemanticsWithRegex s)
    else some (extractSemanticsWithRegex s)


end Mz

namespace Mz

/-! ## `plsql_parser.py` — the canonical PL/SQL parser / graph assembler -/

/-- Modelled from the spec: `NodeType` lives in
`metazcode/sdk/models/canonical_types.py`, which is not among the provided
sources; spec §3 lists the node variants. -/
inductive NodeType where
  | PIPELINE | OPERATION | TABLE | CONNECTION | PARAMETER
deriving DecidableEq

/-- Modelled from the spec: `EdgeType` lives in
`metazcode/sdk/models/canonical_types.py`, which is not among the provided
sources; spec §3 lists the relation variants. -/
inductive EdgeType where
  | CONTAINS | READS_FROM | WRITES_TO | REFERENCES | DEPENDS_ON | USES
deriving DecidableEq

/-- Python values stored in node/edge property maps: strings, numbers,
booleans, `None`, lists, string-keyed dicts, and the semantics / enriched
column objects the parser stores as-is. -/
inductive Py where
  | s (v : Str)
  | n (v : Nat)
  | q (v : ℚ)
  | b (v : Bool)
  | non
  | lst (xs : List Py)
  | dct (kvs : List (String × Py))
  | tref (t : TableReference)
  | cexp (c : ColumnExpression)
  | enr (e : EnrichedColumn)

/-- `dict.get`. -/
def pyGet (kvs : List (String × Py)) (k : String) : Option Py :=
  (kvs.find? (fun e => e.1 = k)).map (fun e => e.2)

/-- `d[k] = v`: overwrite in place when the key exists, else append. -/
def pySetK (kvs : List (String × Py)) (k : String) (v : Py) : List (String × Py) :=
  if (kvs.find? (fun e => e.1 = k)).isSome then
    kvs.map (fun e => if e.1 = k then (k, v) else e)
  else
    kvs ++ [(k, v)]

/-- `d.update(other)`. -/
def pyUpdate (kvs other : List (String × Py)) : List (String × Py) :=
  other.foldl (fun acc e => pySetK acc e.1 e.2) kvs

/-- An optional string as a Python value (`None` when absent). -/
def pyOptS : Option Str → Py
  | some v => .s v
  | none => .non

/-- Truthiness of an optional string (Python `if x:`). -/
def truthyS : Option Str → Bool
  | some v => v ≠ []
  | none => false

/-- Python `a or b` on optional strings, as used for `alias or column_name`. -/
def firstTruthyS (l : List (Option Str)) : Option Str :=
  l.foldr (fun o acc => if truthyS o then o else acc) none

/-- Modelled from the spec: `Node` of `metazcode/sdk/models/graph.py` (not
among the provided sources); §3 specifies identity `(node_id, node_type)`
plus `name` and an open `properties` map. -/
structure Node where
  node_id : Str
  node_type : NodeType
  name : Str
  properties : List (String × Py)

/-- Modelled from the spec: `Edge` of `metazcode/sdk/models/graph.py` (not
among the provided sources); §3 specifies identity
`(source_id, target_id, relation)` plus `properties`. -/
structure Edge where
  source_id : Str
  target_id : Str
  relation : EdgeType
  properties : List (String × Py)

/-- `CanonicalPlsqlParser.ORACLE_FUNCTIONS` (the parser's own set). -/
def ORACLE_FUNCTIONS_P : List Str := [
  lstr "round", lstr "avg", lstr "sum", lstr "count", lstr "max", lstr "min",
  lstr "substr", lstr "to_date", lstr "to_char",
  lstr "nvl", lstr "decode", lstr "coalesce", lstr "trim", lstr "ltrim",
  lstr "rtrim", lstr "upper", lstr "lower",
  lstr "sysdate", lstr "current_date", lstr "cast", lstr "extract", lstr "trunc",
  lstr "ceil", lstr "floor",
  lstr "abs", lstr "mod", lstr "power", lstr "sqrt", lstr "sign", lstr "length",
  lstr "instr", lstr "replace",
  lstr "translate", lstr "lpad", lstr "rpad", lstr "soundex", lstr "ascii",
  lstr "chr", lstr "initcap"]

/-- The reserved-word set of `CanonicalPlsqlParser._is_reserved`. -/
def RESERVED_WORDS : List Str := [
  lstr "select", lstr "from", lstr "insert", lstr "update", lstr "delete",
  lstr "merge", lstr "into", lstr "values", lstr "where", lstr "and", lstr "or",
  lstr "not", lstr "exists", lstr "in", lstr "between", lstr "like",
  lstr "join", lstr "inner", lstr "left", lstr "right", lstr "full", lstr "outer",
  lstr "on", lstr "group", lstr "order", lstr "by", lstr "having", lstr "union",
  lstr "all", lstr "distinct", lstr "case", lstr "when", lstr "then", lstr "else",
  lstr "end",
  lstr "dual", lstr "rownum",
  lstr "to_date", lstr "to_char", lstr "substr", lstr "extract", lstr "nvl",
  lstr "decode", lstr "coalesce", lstr "trim", lstr "ltrim", lstr "rtrim",
  lstr "upper", lstr "lower", lstr "sysdate", lstr "current_date", lstr "cast",
  lstr "varchar2", lstr "number", lstr "date", lstr "char", lstr "timestamp",
  lstr "with", lstr "as", lstr "is", lstr "begin", lstr "declare", lstr "loop",
  lstr "for", lstr "while", lstr "commit", lstr "rollback",
  lstr "primary", lstr "key", lstr "constraint", lstr "references", lstr "unique",
  lstr "check", lstr "foreign", lstr "using", lstr "set", lstr "of",
  lstr "table", lstr "column", lstr "row", lstr "add", lstr "comment",
  lstr "prompt", lstr "source"]

/-- `_is_reserved`. -/
def isReserved (name : Str) : Bool := RESERVED_WORDS.contains (lowS name)

/-- `_is_fake_table_node` ("Fix A"). -/
def isFakeTable (tableName : Str) : Bool :=
  tableName = lstr "(" || startsWith tableName (lstr "(")

/-- `_is_oracle_function` (the parser's check). -/
def isOracleFunctionP (name : Str) : Bool := ORACLE_FUNCTIONS_P.contains (lowS name)

/-- `_create_fqn_table` with services `oracle`/`default`. -/
def createFqnTable (tableName : Str) (schema : Option Str) : Str :=
  let cleanTable := stripWs (stripChar '\x27' (stripChar '"' tableName))
  if containsSub cleanTable (lstr ".") then
    let parts := splitOnC '.' cleanTable
    if parts.length = 2 then
      lstr "oracle.default." ++ (parts.headD []) ++ [ '.' ] ++ ((parts.drop 1).headD [])
    else if parts.length ≥ 3 then
      cleanTable
    else
      let sc := if (schema.getD []) = [] then lstr "public" else schema.getD []
      lstr "oracle.default." ++ sc ++ [ '.' ] ++ cleanTable
  else
    let sc := if (schema.getD []) = [] then lstr "public" else schema.getD []
    lstr "oracle.default." ++ sc ++ [ '.' ] ++ cleanTable

/-- `_create_fqn_pipeline`. -/
def createFqnPipeline (pipelineName : Str) : Str :=
  lstr "oracle/" ++ stripWs pipelineName

end Mz

namespace Mz

/-! ### The parser's compiled patterns -/

/-- `PROC_RE`:
`\b(create|replace)\s+(or\s+replace\s+)?(procedure|function)\s+([a-zA-Z0-9_\$#]+)`. -/
def procRe : Rx := rxCat [
  .wordB,
  .grp 1 (.alt (litCI "create") (litCI "replace")), sPlus,
  rxOpt true (.grp 2 (rxCat [litCI "or", sPlus, litCI "replace", sPlus])),
  .grp 3 (.alt (litCI "procedure") (litCI "function")), sPlus,
  .grp 4 (rxPlus false (.cls isIdentC))]

/-- `BEGIN_RE`: `\bbegin\b`. -/
def beginRe : Rx := rxCat [.wordB, litCI "begin", .wordB]

/-- `SELECT_RE`: `\bfrom\s+([a-zA-Z0-9_\.\$#\"]+)`. -/
def selectRe : Rx := rxCat [.wordB, litCI "from", sPlus, .grp 1 (rxPlus false (.cls isTableC))]

/-- `INSERT_RE`: `\binsert\s+into\s+([a-zA-Z0-9_\.\$#\"]+)`. -/
def insertRe : Rx := rxCat [.wordB, litCI "insert", sPlus, litCI "into", sPlus,
  .grp 1 (rxPlus false (.cls isTableC))]

/-- `UPDATE_RE`: `\bupdate\s+([a-zA-Z0-9_\.\$#\"]+)\b`. -/
def updateRe : Rx := rxCat [.wordB, litCI "update", sPlus,
  .grp 1 (rxPlus false (.cls isTableC)), .wordB]

/-- `MERGE_RE`: `\bmerge\s+into\s+([a-zA-Z0-9_\.\$#\"]+)`. -/
def mergeRe : Rx := rxCat [.wordB, litCI "merge", sPlus, litCI "into", sPlus,
  .grp 1 (rxPlus false (.cls isTableC))]

/-- `CREATE_TABLE_RE`: `\bcreate\s+table\s+([a-zA-Z0-9_\.\$#\"]+)`. -/
def createTableRe : Rx := rxCat [.wordB, litCI "create", sPlus, litCI "table", sPlus,
  .grp 1 (rxPlus false (.cls isTableC))]

/-- `CALL_RE`: `\b([a-zA-Z0-9_\$#]+)\s*\(`. -/
def callRe : Rx := rxCat [.wordB, .grp 1 (rxPlus false (.cls isIdentC)), sStar,
  .cls (· = '(')]

/-- `CURSOR_RE`:
`\bcursor\s+([a-zA-Z0-9_\$#]+)\s+is\s+(.*?)(?=\bopen\b|\bfor\b|;)` (IGNORECASE, DOTALL). -/
def cursorRe : Rx := rxCat [
  .wordB, litCI "cursor", sPlus, .grp 1 (rxPlus false (.cls isIdentC)), sPlus,
  litCI "is", sPlus, .grp 2 (.star true dotAll),
  .look (rxAlts [rxCat [.wordB, litCI "open", .wordB],
    rxCat [.wordB, litCI "for", .wordB], litS ";"])]

/-- `TASK_COMMENT_RE`:
`--\s*(.*?(?:task|step|phase|load|extract|transform|analyze).*?)$` (IGNORECASE, MULTILINE). -/
def taskCommentRe : Rx := rxCat [
  litS "--", sStar,
  .grp 1 (rxCat [.star true dotC,
    rxAlts [litCI "task", litCI "step", litCI "phase", litCI "load",
      litCI "extract", litCI "transform", litCI "analyze"],
    .star true dotC]),
  .lineEnd true]

/-- `BLOCK_COMMENT_RE`:
`/\*\s*(.*?(?:task|step|phase|load|extract|transform|analyze).*?)\s*\*/` (IGNORECASE, DOTALL). -/
def blockCommentTaskRe : Rx := rxCat [
  litS "/*", sStar,
  .grp 1 (rxCat [.star true dotAll,
    rxAlts [litCI "task", litCI "step", litCI "phase", litCI "load",
      litCI "extract", litCI "transform", litCI "analyze"],
    .star true dotAll]),
  sStar, litS "*/"]

/-- `ERROR_HANDLING_RE`:
`\b(exception\s+when|raise_application_error|sqlcode|sqlerrm|others\s+then)\b`. -/
def errorHandlingRe : Rx := rxCat [
  .wordB,
  .grp 1 (rxAlts [rxCat [litCI "exception", sPlus, litCI "when"],
    litCI "raise_application_error", litCI "sqlcode", litCI "sqlerrm",
    rxCat [litCI "others", sPlus, litCI "then"]]),
  .wordB]

/-- `--.*?$` (MULTILINE, lazy) of `_strip_comments`. -/
def lineCommentLazyRx : Rx := rxCat [litS "--", .star true dotC, .lineEnd true]

/-- `CanonicalPlsqlParser._strip_comments`: block comments first, then line
comments, both replaced by a space. -/
def stripComments (text : Str) : Str :=
  rxSub lineCommentLazyRx (fun _ _ => [' '])
    (rxSub blockCommentRx (fun _ _ => [' ']) text)

/-! ### Simple textual searches used by the task-name / subtype logic -/

def insertIntoRx : Rx := rxCat [.wordB, litCI "insert", sPlus, litCI "into", .wordB]
def selectWordRx : Rx := rxCat [.wordB, litCI "select", .wordB]
def updateWordRx : Rx := rxCat [.wordB, litCI "update", .wordB]
def createTableWordRx : Rx := rxCat [.wordB, litCI "create", sPlus, litCI "table", .wordB]
def selectFromRx : Rx := rxCat [.wordB, litCI "select", .wordB, .star false dotC,
  .wordB, litCI "from", .wordB]
def groupByRx : Rx := rxCat [.wordB, litCI "group", sPlus, litCI "by", .wordB]
def dbmsOutputRx : Rx := rxCat [.wordB, litCI "dbms_output", .cls (· = '.'),
  litCI "put_line", .wordB]
def insertLogRx : Rx := rxCat [.wordB, litCI "insert", sPlus, litCI "into", sPlus,
  .star false wordC, litCI "log", .star false wordC]
def raiseAppErrRx : Rx := rxCat [.wordB, litCI "raise_application_error", .wordB]

/-- `_extract_tables_from_select`; the Python `set` is modelled as an
insertion-ordered duplicate-free list. -/
def extractTablesFromSelect (sql : Str) : List Str :=
  (rxFindIter selectRe sql).foldl (fun acc m =>
    let name := stripChar '"' ((capStr sql m.2.2 1).getD [])
    if ¬ isReserved name ∧ ¬ isOracleFunctionP name ∧ ¬ acc.contains name then
      acc ++ [name]
    else acc) []

/-- One write-target regex pass of `_extract_tables_from_dml`. -/
def dmlWriteTargets (r : Rx) (sql : Str) (acc : List Str) : List Str :=
  (rxFindIter r sql).foldl (fun acc m =>
    let name := stripChar '"' ((capStr sql m.2.2 1).getD [])
    if ¬ isReserved name ∧ ¬ isOracleFunctionP name ∧ ¬ acc.contains name then
      acc ++ [name]
    else acc) acc

/-- `_extract_tables_from_dml`: `(reads, writes)`. -/
def extractTablesFromDml (sql : Str) : List Str × List Str :=
  let writes := dmlWriteTargets mergeRe sql (dmlWriteTargets updateRe sql
    (dmlWriteTargets insertRe sql []))
  (extractTablesFromSelect sql, writes)

/-- `_detect_operations`: named routines first, else a single anonymous span
over the whole text when a bare `BEGIN` exists. -/
def detectOperations (text : Str) : List (Str × Nat × Nat) :=
  let ops := (rxFindIter procRe text).map (fun m =>
    (((capStr text m.2.2 4).getD []), m.1, text.length))
  if ops = [] ∧ (rxSearch beginRe text).isSome then
    [(lstr "anonymous_block", 0, text.length)]
  else ops

/-- The DML/DDL fallback test of `parse`: any of the five statement patterns
matches. -/
def hasDmlSignal (raw : Str) : Bool :=
  (rxSearch selectRe raw).isSome ∨ (rxSearch insertRe raw).isSome ∨
    (rxSearch updateRe raw).isSome ∨ (rxSearch mergeRe raw).isSome ∨
    (rxSearch createTableRe raw).isSome

/-- `_extract_task_name_from_block`. -/
def extractTaskNameFromBlock (block : Str) : Str :=
  match (rxFindIter taskCommentRe block).filterMap (fun m => capStr block m.2.2 1) with
  | t :: _ => stripWs t
  | [] =>
    match (rxFindIter blockCommentTaskRe block).filterMap
        (fun m => capStr block m.2.2 1) with
    | t :: _ => stripWs t
    | [] =>
      match (rxFindIter cursorRe block).filterMap (fun m => capStr block m.2.2 1) with
      | c :: _ => lstr "cursor_processing_" ++ c
      | [] =>
        if (rxSearch insertIntoRx block).isSome then
          if (rxSearch selectWordRx block).isSome then lstr "data_load_task"
          else lstr "data_insert_task"
        else if (rxSearch updateWordRx block).isSome then lstr "data_update_task"
        else if (rxSearch createTableWordRx block).isSome then lstr "table_creation_task"
        else if (rxSearch selectFromRx block).isSome then
          if (rxSearch groupByRx block).isSome then lstr "data_analysis_task"
          else lstr "data_query_task"
        else lstr "anonymous_block"

/-- The error-handling summary dict of `_detect_error_handling`. -/
structure ErrorInfo where
  has_error_handling : Bool
  error_patterns : List Str
  error_outputs : List Str
deriving DecidableEq

/-- `_detect_error_handling`. -/
def detectErrorHandling (block : Str) : ErrorInfo :=
  if (rxSearch errorHandlingRe block).isSome then
    let pats := ((rxFindIter errorHandlingRe block).filterMap
      (fun m => capStr block m.2.2 1)).map stripWs
    let outs :=
      (if (rxSearch dbmsOutputRx block).isSome then [lstr "DBMS_OUTPUT"] else []) ++
      (if (rxSearch insertLogRx block).isSome then [lstr "ERROR_LOG_TABLE"] else []) ++
      (if (rxSearch raiseAppErrRx block).isSome then [lstr "APPLICATION_ERROR"] else [])
    ⟨true, pats, outs⟩
  else ⟨false, [], []⟩

def ErrorInfo.toPy (e : ErrorInfo) : Py :=
  .dct [("has_error_handling", .b e.has_error_handling),
    ("error_patterns", .lst (e.error_patterns.map Py.s)),
    ("error_outputs", .lst (e.error_outputs.map Py.s))]

/-! ### `_clean_expression` -/

/-- `ROUND\s*\(\s*AGG\s*\([^)]+\)\s*,\s*\d+\s*\)` for an aggregate name. -/
def roundAggRx (agg : String) : Rx := rxCat [
  litCI "ROUND", sStar, .cls (· = '('), sStar, litCI agg, sStar, .cls (· = '('),
  rxPlus false (.cls (· ≠ ')')), .cls (· = ')'), sStar, .cls (· = ','), sStar,
  rxPlus false digitC, sStar, .cls (· = ')')]

/-- `FN\s*\([^)]+\)` for a function name. -/
def fnCallArgRx (fn : String) : Rx := rxCat [
  litCI fn, sStar, .cls (· = '('), rxPlus false (.cls (· ≠ ')')), .cls (· = ')')]

/-- `NVL\s*\([^,]+,\s*[^)]+\)`. -/
def nvlArgsRx : Rx := rxCat [
  litCI "NVL", sStar, .cls (· = '('), rxPlus false (.cls (· ≠ ',')), .cls (· = ','),
  sStar, rxPlus false (.cls (· ≠ ')')), .cls (· = ')')]

/-- `AGG\s*\([^)]+\)\s+\w+` (aggregate with an alias). -/
def aggAliasRx (agg : String) : Rx := rxCat [
  litCI agg, sStar, .cls (· = '('), rxPlus false (.cls (· ≠ ')')), .cls (· = ')'),
  sPlus, rxPlus false wordC]

/-- The `complex_patterns` table of `_clean_expression`. -/
def complexPatterns : List (Rx × String) := [
  (roundAggRx "SUM", "ROUNDED_SUM"),
  (roundAggRx "COUNT", "ROUNDED_COUNT"),
  (fnCallArgRx "TO_DATE", "DATE_CONVERSION"),
  (fnCallArgRx "TO_CHAR", "CHAR_CONVERSION"),
  (fnCallArgRx "EXTRACT", "DATE_PART_EXTRACTION"),
  (nvlArgsRx, "NULL_VALUE_REPLACEMENT"),
  (fnCallArgRx "DECODE", "CONDITIONAL_LOGIC"),
  (aggAliasRx "COUNT", "AGGREGATE_WITH_ALIAS"),
  (aggAliasRx "AVG", "AVERAGE_WITH_ALIAS"),
  (aggAliasRx "SUM", "SUM_WITH_ALIAS")]

/-- `_clean_expression`. -/
def cleanExpression (expression : Str) : Str :=
  if expression = [] then expression
  else
    let cleaned := wsNormalize expression
    let cleaned :=
      if (rxSearch (roundAggRx "AVG") cleaned).isSome then
        rxSub (roundAggRx "AVG") (fun _ _ => lstr "ROUNDED_AVERAGE") cleaned
      else cleaned
    complexPatterns.foldl (fun acc pr =>
      rxSub pr.1 (fun _ _ => lstr pr.2) acc) cleaned

/-- `_categorize_operation_subtype`. -/
def categorizeOperationSubtype (sqlStatements : List Str) : Str :=
  let hasSelect := sqlStatements.any (fun st => containsSub (lowS st) (lstr "select"))
  let hasInsert := sqlStatements.any (fun st => containsSub (lowS st) (lstr "insert"))
  let hasUpdate := sqlStatements.any (fun st => containsSub (lowS st) (lstr "update"))
  let hasMerge := sqlStatements.any (fun st => containsSub (lowS st) (lstr "merge"))
  let hasCreate := sqlStatements.any (fun st =>
    containsSub (lowS st) (lstr "create table"))
  let hasProc := sqlStatements.any (fun st =>
    containsSub (lowS st) (lstr "create procedure") ∨
      containsSub (lowS st) (lstr "create function"))
  if hasProc then lstr "EXECUTE"
  else if hasMerge then lstr "DATA_FLOW"
  else if hasCreate then lstr "EXECUTE"
  else if hasInsert ∧ hasSelect then lstr "DATA_FLOW"
  else if hasUpdate then lstr "DATA_FLOW"
  else if hasInsert then lstr "DATA_FLOW"
  else if hasSelect then lstr "DATA_FLOW"
  else lstr "EXECUTE"

/-- `(select\s+.*?)\s+into\s+.+?\s+(from\s+)` (IGNORECASE, DOTALL) of the
`SELECT ... INTO` normalization in `_extract_sql_statements`. -/
def intoNormRx : Rx := rxCat [
  .grp 1 (rxCat [litCI "select", sPlus, .star true dotAll]),
  sPlus, litCI "into", sPlus, rxPlus true dotAll, sPlus,
  .grp 2 (.seq (litCI "from") sPlus)]

/-- `SELECT\s+.+?\s+FROM\s+.+?(?=;|$)` (IGNORECASE), the regex fallback of
`_extract_sql_statements`. -/
def selectStmtRx : Rx := rxCat [
  litCI "SELECT", sPlus, rxPlus true dotC, sPlus, litCI "FROM", sPlus,
  rxPlus true dotC, .look (.alt (litS ";") (.lineEnd false))]

/-- `_extract_sql_statements`.  The replacement string the source passes to
`re.sub` is the raw literal `r"\\1 \\2"`, which the `re` module reads as the
literal text `\1 \2` rather than group references — reproduced verbatim. -/
def extractSqlStatements (env : AstEnv) (block : Str) : List Str :=
  if ¬ containsSub (lowS block) (lstr "select") then []
  else
    let normalizeInto := fun (s : Str) => rxSub intoNormRx (fun _ _ => lstr "\\1 \\2") s
    let viaGlot : List Str :=
      if env.hasSqlglot then
        (((splitOnC ';' block).map stripWs).filter (· ≠ [])).filter (fun piece =>
          containsSub (lowS piece) (lstr "select") ∧
            containsSub (lowS piece) (lstr " from ") ∧ env.selectOk piece)
      else []
    if env.hasSqlglot ∧ viaGlot ≠ [] then viaGlot.map normalizeInto
    else
      let text := wsNormalize block
      let stmts := (rxFindIter selectStmtRx text).map (fun m => slice text m.1 m.2.1)
      stmts.map normalizeInto

end Mz

namespace Mz

/-! ### Serialization of semantics objects to Python values -/

/-- `TableReference` fields as stored inside `SqlSemantics.to_dict`. -/
def TableReference.toPy (t : TableReference) : Py :=
  .dct [("name", .s t.name), ("alias", pyOptS t.aliasName),
    ("schema", pyOptS t.schema), ("full_name", .s t.fullName)]

/-- `JoinRelationship.to_dict`. -/
def JoinRelationship.toPy (j : JoinRelationship) : Py :=
  .dct [("join_type", .s j.join_type.val),
    ("left_table", .dct [("name", .s j.left_table.name),
      ("alias", pyOptS j.left_table.aliasName),
      ("schema", pyOptS j.left_table.schema),
      ("full_name", .s j.left_table.fullName)]),
    ("right_table", .dct [("name", .s j.right_table.name),
      ("alias", pyOptS j.right_table.aliasName),
      ("schema", pyOptS j.right_table.schema),
      ("full_name", .s j.right_table.fullName)]),
    ("condition", .s j.condition), ("raw_condition", .s j.raw_condition)]

/-- `ColumnExpression.to_dict`. -/
def ColumnExpression.toPy (c : ColumnExpression) : Py :=
  .dct [("expression", .s c.expression), ("alias", pyOptS c.aliasName),
    ("source_table", pyOptS c.source_table), ("source_alias", pyOptS c.source_alias),
    ("column_name", pyOptS c.column_name),
    ("effective_name", .s ((firstTruthyS [c.aliasName, c.column_name]).getD c.expression))]

/-- `InlineView.to_dict`. -/
def InlineView.toPy (iv : InlineView) : Py :=
  .dct [("alias", .s iv.aliasName), ("sql", .s iv.sql),
    ("base_tables", .lst (iv.base_tables.map Py.s))]

/-- Insertion-ordered deduplication, modelling `list(set(...))` of strings up
to ordering. -/
def dedupFirst (l : List Str) : List Str :=
  l.foldl (fun acc x => if acc.contains x then acc else acc ++ [x]) []

/-- `SqlSemantics.to_dict`. -/
def SqlSemantics.toPy (sem : SqlSemantics) : Py :=
  .dct [("original_query", .s sem.original_query),
    ("tables", .lst (sem.tables.map TableReference.toPy)),
    ("joins", .lst (sem.joins.map JoinRelationship.toPy)),
    ("columns", .lst (sem.columns.map ColumnExpression.toPy)),
    ("inline_views", .lst (sem.inline_views.map InlineView.toPy)),
    ("where_clause", pyOptS sem.where_clause),
    ("migration_metadata", .dct [
      ("table_count", .n sem.tables.length),
      ("join_count", .n sem.joins.length),
      ("column_count", .n sem.columns.length),
      ("inline_view_count", .n sem.inline_views.length),
      ("has_aliases", .b (sem.columns.any (fun c => truthyS c.aliasName))),
      ("has_joins", .b (sem.joins.length > 0)),
      ("has_inline_views", .b (sem.inline_views.length > 0)),
      ("join_types", .lst ((dedupFirst (sem.joins.map
        (fun j => j.join_type.val))).map Py.s))])]

/-! ### Validation, schema normalization and inline-view lineage -/

/-- The per-table-dict keyword-alias strip of
`_validate_node_for_serialization`. -/
def stripKeywordAliasTable (t : Py) : Py :=
  match t with
  | .dct kvs =>
    match pyGet kvs "alias" with
    | some (.s a) =>
      if a ≠ [] ∧ SQL_KEYWORDS.contains (lowS a) then .dct (pySetK kvs "alias" .non)
      else .dct kvs
    | _ => .dct kvs
  | _ => t

/-- The per-semantics-dict part of the same strip. -/
def stripKeywordAliasSem (p : Py) : Py :=
  match p with
  | .dct kvs =>
    match pyGet kvs "tables" with
    | some (.lst ts) => .dct (pySetK kvs "tables" (.lst (ts.map stripKeywordAliasTable)))
    | _ => .dct kvs
  | _ => p

/-- `_validate_node_for_serialization` (value level): `none` = rejected;
a kept node has any keyword aliases inside a list-valued `sql_semantics`
property stripped in place. -/
def validateNodeV (node : Node) : Option Node :=
  if node.node_type = .TABLE ∧ isFakeTable node.name then none
  else if node.node_type = .TABLE ∧ isOracleFunctionP node.name then none
  else
    let props :=
      match pyGet node.properties "sql_semantics" with
      | some (.lst sems) =>
        pySetK node.properties "sql_semantics" (.lst (sems.map stripKeywordAliasSem))
      | _ => node.properties
    some { node with properties := props }

/-- `_validate_edge_for_serialization`. -/
def validateEdgeV (edge : Edge) : Bool :=
  if startsWith edge.source_id (lstr "table::(") ||
      startsWith edge.target_id (lstr "table::(") then false
  else
    let sourceTable := if startsWith edge.source_id (lstr "table::") then
        replaceAll (lstr "table::") [] edge.source_id else []
    let targetTable := if startsWith edge.target_id (lstr "table::") then
        replaceAll (lstr "table::") [] edge.target_id else []
    if (sourceTable ≠ [] ∧ isOracleFunctionP sourceTable) ∨
        (targetTable ≠ [] ∧ isOracleFunctionP targetTable) then false
    else true

/-- The per-table-dict part of `_normalize_schema_in_semantics` ("Fix E"). -/
def normSchemaTable (t : Py) : Py :=
  match t with
  | .dct kvs =>
    match pyGet kvs "schema" with
    | some (.s v) => if v = [] then .dct (pySetK kvs "schema" .non) else .dct kvs
    | _ => .dct kvs
  | _ => t

/-- `_normalize_schema_in_semantics`. -/
def normalizeSchemaInSemantics (p : Py) : Py :=
  match p with
  | .dct kvs =>
    let kvs :=
      match pyGet kvs "tables" with
      | some (.lst ts) => pySetK kvs "tables" (.lst (ts.map normSchemaTable))
      | _ => kvs
    let kvs :=
      match pyGet kvs "joins" with
      | some (.lst js) =>
        pySetK kvs "joins" (.lst (js.map (fun j =>
          match j with
          | .dct jkvs =>
            let jkvs :=
              match pyGet jkvs "left_table" with
              | some lt => pySetK jkvs "left_table" (normSchemaTable lt)
              | none => jkvs
            let jkvs :=
              match pyGet jkvs "right_table" with
              | some rt => pySetK jkvs "right_table" (normSchemaTable rt)
              | none => jkvs
            .dct jkvs
          | _ => j)))
      | _ => kvs
    .dct kvs
  | _ => p

/-- Keyed `dict`-get of a string value with Python truthiness. -/
def pyGetStrTruthy (kvs : List (String × Py)) (k : String) : Option Str :=
  match pyGet kvs k with
  | some (.s v) => if v ≠ [] then some v else none
  | _ => none

/-- Equality of primitive Python values (the values compared inside
`_resolve_inline_view_lineage` are strings or `None` coming out of
`to_dict`). -/
def pyPrimEq : Py → Py → Bool
  | .s a, .s b => a = b
  | .n a, .n b => a = b
  | .q a, .q b => a = b
  | .b a, .b b => a = b
  | .non, .non => true
  | _, _ => false

/-- Rendering a property value into an edge-id f-string
(`f"table::{x}"`). -/
def pyFmt (p : Py) : Str :=
  match p with
  | .s v => v
  | .non => lstr "None"
  | .n v => natToStr v
  | _ => []

/-- `_resolve_inline_view_lineage` ("Fix F"). -/
def resolveInlineViewLineage (semanticsList : List Py) : List Edge :=
  semanticsList.flatMap (fun sem =>
    match sem with
    | .dct kvs =>
      let inlineViews := match pyGet kvs "inline_views" with
        | some (.lst ivs) => ivs
        | _ => []
      let joins := match pyGet kvs "joins" with
        | some (.lst js) => js
        | _ => []
      joins.flatMap (fun j =>
        let jkvs := match j with | .dct x => x | _ => []
        let leftTable := match pyGet jkvs "left_table" with
          | some (.dct x) => x | _ => []
        let rightTable := match pyGet jkvs "right_table" with
          | some (.dct x) => x | _ => []
        inlineViews.flatMap (fun iv =>
          let ivkvs := match iv with | .dct x => x | _ => []
          let ivAlias := (pyGet ivkvs "alias").getD Py.non
          let baseTables := match pyGet ivkvs "base_tables" with
            | some (.lst bs) => bs.filterMap (fun b =>
                match b with | Py.s v => some v | _ => none)
            | _ => []
          let edgeProps := fun (_ : Unit) =>
            [("join_type", (pyGet jkvs "join_type").getD (Py.s (lstr "INNER JOIN"))),
             ("condition", (pyGet jkvs "condition").getD Py.non),
             ("relationship_type", .s (lstr "inline_view_lineage")),
             ("inline_view_alias", ivAlias)]
          let leftSide :=
            if pyPrimEq ((pyGet leftTable "name").getD .non) ivAlias ∨
                pyPrimEq ((pyGet leftTable "alias").getD .non) ivAlias then
              baseTables.filterMap (fun bt =>
                if ¬ isFakeTable bt then
                  some (Edge.mk (lstr "table::" ++ bt)
                    (lstr "table::" ++ pyFmt ((pyGet rightTable "name").getD .non))
                    .REFERENCES (edgeProps ()))
                else none)
            else []
          let rightSide :=
            if pyPrimEq ((pyGet rightTable "name").getD .non) ivAlias ∨
                pyPrimEq ((pyGet rightTable "alias").getD .non) ivAlias then
              baseTables.filterMap (fun bt =>
                if ¬ isFakeTable bt then
                  some (Edge.mk
                    (lstr "table::" ++ pyFmt ((pyGet leftTable "name").getD .non))
                    (lstr "table::" ++ bt) .REFERENCES (edgeProps ()))
                else none)
            else []
          leftSide ++ rightSide))
    | _ => [])

end Mz

namespace Mz

/-! ### Lineage extraction -/

/-- Python string truncation `s[:100] + "..." if len(s) > 100 else s`. -/
def truncStmt (s : Str) : Str :=
  if s.length > 100 then s.take 100 ++ lstr "..." else s

/-- `_extract_comprehensive_column_lineage`. -/
def extractComprehensiveColumnLineage (env : AstEnv) (sqlStatements : List Str) :
    List Py :=
  sqlStatements.flatMap (fun sqlStmt =>
    match parseSqlSemanticsV env sqlStmt with
    | none => []
    | some sem =>
      if sem.columns = [] then []
      else
        sem.columns.map (fun col =>
          let cleanExpr : Option Str :=
            if col.expression ≠ [] then some (cleanExpression col.expression)
            else col.column_name
          let transformationType :=
            if truthyS cleanExpr ∧ cleanExpr ≠ col.column_name then
              if ([lstr "ROUNDED_", lstr "DATE_CONVERSION", lstr "AGGREGATE_"].any
                  (fun f => containsSub (upS ((cleanExpr).getD [])) f)) then
                lstr "TRANSFORMED"
              else if truthyS col.aliasName then lstr "DERIVED"
              else lstr "COMPUTED"
            else lstr "DIRECT"
          Py.dct [
            ("source_expression",
              pyOptS (if col.expression ≠ [] then some col.expression
                else col.column_name)),
            ("cleaned_expression", pyOptS cleanExpr),
            ("target_column",
              .s ((firstTruthyS [col.aliasName, col.column_name]).getD
                (lstr "unknown"))),
            ("transformation_type", .s transformationType),
            ("sql_statement", .s (truncStmt sqlStmt)),
            ("source_table", pyOptS col.source_table),
            ("source_alias", pyOptS col.source_alias)]))

/-- `_extract_cursor_column_lineage`. -/
def extractCursorColumnLineage (env : AstEnv) (block : Str) : List Py :=
  (rxFindIter cursorRe block).filterMap (fun m =>
    let cursorName := (capStr block m.2.2 1).getD []
    let cursorSql := (capStr block m.2.2 2).getD []
    match parseSqlSemanticsV env cursorSql with
    | none => none
    | some sem =>
      let inputColumns := sem.tables.map (fun t =>
        Py.dct [("table_name", .s t.name),
          ("schema", .s ((if truthyS t.schema then t.schema.getD [] else
            lstr "public"))),
          ("fqn", .s (createFqnTable t.name t.schema))])
      let outputColumns := sem.columns.filterMap (fun col =>
        if truthyS col.column_name ∧ col.column_name ≠ some (lstr "*") then
          some (Py.dct [("column_name", pyOptS col.column_name),
            ("alias", pyOptS col.aliasName),
            ("expression", .s (cleanExpression col.expression)),
            ("source_table", pyOptS col.source_table)])
        else none)
      if inputColumns.length ≠ 0 ∨ outputColumns.length ≠ 0 then
        some (Py.dct [("cursor_name", .s cursorName),
          ("operation_type", .s (lstr "CURSOR_LOAD")),
          ("input_columns", .lst inputColumns),
          ("output_columns", .lst outputColumns),
          ("source_sql", .s (stripWs cursorSql))])
      else none)

/-! ### Node and edge construction -/

/-- The parser configuration (`CanonicalPlsqlParser.__init__`): the injected
connection and parameter contexts, the type-mapping switch and the parsed
target platforms. -/
structure Cfg where
  connections : List (Str × List (String × Py))
  parameters : List (Str × List (String × Py))
  enableTypeMapping : Bool
  targetPlatforms : List TargetPlatform

/-- `_parse_target_platforms` (unknown platform strings are dropped). -/
def parseTargetPlatforms (l : List Str) : List TargetPlatform :=
  l.filterMap platformOfStr

/-- The default configuration: empty contexts, type mapping on, platforms
`["sql_server", "postgresql"]`. -/
def defaultCfg : Cfg :=
  ⟨[], [], true, parseTargetPlatforms [lstr "sql_server", lstr "postgresql"]⟩

/-- Modelled from the spec: `SourceContext.create_node_traceability` lives in
`metazcode/sdk/models/traceability.py`, which is not among the provided
sources.  Per spec §3 node properties carry the source file path and
technology markers; the keys used here are disjoint from every key the
claims inspect. -/
def createNodeTraceability (filePath : Str) (name : Str) : List (String × Py) :=
  [("source_file_path", .s filePath), ("source_file_type", .s (lstr "sql")),
   ("xml_path", .s (lstr "//plsql_operation[@name=" ++ name ++ lstr "]")),
   ("source_technology", .s (lstr "ORACLE"))]

/-- Modelled from the spec: `SourceContext.create_edge_traceability`, same
provenance as `createNodeTraceability`. -/
def createEdgeTraceability (filePath : Str) : List (String × Py) :=
  [("source_file_path", .s filePath),
   ("derivation_method", .s (lstr "sql_parsing")),
   ("xml_location", .s (lstr "//plsql_statement")),
   ("confidence_level", .s (lstr "high")),
   ("source_technology", .s (lstr "ORACLE"))]

/-- `_calculate_mapping_confidence`: the average of the per-column conversion
confidences. -/
def calculateMappingConfidence (columnTypes : List EnrichedColumn) : ℚ :=
  if columnTypes = [] then 0
  else
    qdivN (columnTypes.foldl (fun a c => qadd a c.conversion_confidence)
      (mkRat 0 1)) columnTypes.length

/-- The `type_mapping` property block built for a table created in the
current span. -/
def typeMappingPy (columnTypes : List EnrichedColumn)
    (platforms : List TargetPlatform) : Py :=
  .dct [("columns", .lst (columnTypes.map Py.enr)),
    ("source_platform", .s (lstr "oracle")),
    ("target_platforms", .lst (platforms.map (fun p => Py.s p.val))),
    ("mapping_confidence", .q (calculateMappingConfidence columnTypes))]

/-- `_make_node`. -/
def makeNode (cfg : Cfg) (nodeId : Str) (nodeType : NodeType) (name : Str)
    (properties : List (String × Py)) (filePath : Str) : Node :=
  let props := properties
  let props :=
    if nodeType = .TABLE then
      let schema := match pyGet props "schema" with
        | some (.s v) => some v
        | some _ => none
        | none => some (lstr "public")
      let fqn := createFqnTable name schema
      pySetK (pySetK props "fqn" (.s fqn)) "qualified_name" (.s fqn)
    else if nodeType = .PIPELINE then
      let fqn := createFqnPipeline name
      pySetK (pySetK props "fqn" (.s fqn)) "qualified_name" (.s fqn)
    else props
  let props := if filePath ≠ [] then
      pyUpdate props (createNodeTraceability filePath name)
    else props
  let props := pySetK props "technology" (.s (lstr "ORACLE"))
  let props :=
    if nodeType = .TABLE then
      match pyGet props "create_statement" with
      | some (.s cs) =>
        let columnTypes := detectColumnTypesFromSql cs
        if columnTypes ≠ [] then
          pySetK (pySetK (pySetK props "type_mapping"
              (typeMappingPy columnTypes cfg.targetPlatforms))
            "supported_platforms"
              (.lst (cfg.targetPlatforms.map (fun p => Py.s p.val))))
            "type_mapping_enabled" (.b true)
        else props
      | _ => props
    else props
  ⟨nodeId, nodeType, name, props⟩

/-- `_make_edge`. -/
def makeEdge (source target : Str) (relation : EdgeType)
    (properties : List (String × Py)) (filePath : Str) : Edge :=
  let props := if filePath ≠ [] then
      pyUpdate properties (createEdgeTraceability filePath)
    else properties
  ⟨source, target, relation, props⟩

/-! ### The balanced-parenthesis `CREATE TABLE` statement extraction -/

/-- `create\s+table\s+<escaped name>\s*\(` (IGNORECASE). -/
def createStartRx (tname : Str) : Rx := rxCat [
  litCI "create", sPlus, litCI "table", sPlus,
  rxCat (tname.map (fun ch => ciC ch)), sStar, .cls (· = '(')]

/-- The counter-based scan of `parse`'s PHASE 1: from the opening
parenthesis, find the position just after its matching close. -/
def findBalancedEnd (block : Str) (pos : Nat) : Option Nat :=
  (((block.drop pos).enum).foldl
    (fun (acc : Int × Option Nat) ic =>
      match acc.2 with
      | some _ => acc
      | none =>
        if ic.2 = '(' then (acc.1 + 1, none)
        else if ic.2 = ')' then
          (acc.1 - 1, if acc.1 - 1 = 0 then some (pos + ic.1 + 1) else none)
        else acc)
    ((0 : Int), none)).2

/-- The `create_statement` extraction shared by PHASE 1 of `parse` (and
`_get_table_properties_with_type_mapping`): search for the table's
`CREATE TABLE ... (` opener, scan to the balanced close, and include one
trailing semicolon when present. -/
def extractCreateStatement (block : Str) (tname : Str) :
    Option (Nat × Option Str) :=
  match rxSearch (createStartRx tname) block with
  | none => none
  | some sm =>
    let startPos := sm.1
    let pos := sm.2.1 - 1
    some (startPos,
      match findBalancedEnd block pos with
      | none => none
      | some e0 =>
        let e := if e0 < block.length ∧ stripWs (slice block e0 (e0 + 1)) = lstr ";"
          then e0 + 1 else e0
        some (stripWs (slice block startPos e)))

end Mz

namespace Mz

/-! ### The per-operation graph assembly of `parse` -/

/-- File-level state threaded across the operations of one `parse` call:
`file_created_tables` and `file_seen_assets` (Python sets, modelled as
insertion-ordered duplicate-free lists; the code only tests membership). -/
abbrev FState := List Str × List Str

/-- The `table_props` skeleton of the PHASE-2 table-reference loops. -/
def referencedTableProps (operationType : String) : List (String × Py) :=
  [("table_source", .s (lstr "referenced")), ("schema", .s []),
   ("operation_type", .s (lstr operationType)), ("sql_semantics", .dct []),
   ("cleaned_expressions", .lst [])]

/-- The `sql_semantics` property dict the PHASE-2 loops store on referenced
table nodes, holding the semantics *objects* exactly as the source does. -/
def blockSemanticsProp (sem : SqlSemantics) : Py :=
  .dct [("joins", .lst (sem.joins.map (fun j =>
      Py.dct [("left_table", .tref j.left_table),
        ("right_table", .tref j.right_table),
        ("join_type", .s j.join_type.val)]))),
    ("tables", .lst (sem.tables.map Py.tref)),
    ("columns", .lst (sem.columns.map Py.cexp)),
    ("where_clause", pyOptS sem.where_clause)]

/-- The table properties built in the plain-`SELECT` reads loop (including
the cleaned expressions). -/
def selectReadTableProps (env : AstEnv) (block : Str) : List (String × Py) :=
  let base := referencedTableProps "SELECT"
  match parseSqlSemanticsV env block with
  | none => base
  | some sem =>
    let cleanedExprs := sem.columns.filterMap (fun col =>
      if col.expression ≠ [] then
        some (Py.dct [("original", .s col.expression),
          ("cleaned", .s (cleanExpression col.expression)),
          ("column_name", .s ((firstTruthyS [col.column_name]).getD (lstr "unknown")))])
      else none)
    pySetK (pySetK base "cleaned_expressions" (.lst cleanedExprs))
      "sql_semantics" (blockSemanticsProp sem)

/-- The table properties built in the DML read/write loops. -/
def dmlTableProps (env : AstEnv) (block : Str) (opType : String) :
    List (String × Py) :=
  let base := referencedTableProps opType
  match parseSqlSemanticsV env block with
  | none => base
  | some sem => pySetK base "sql_semantics" (blockSemanticsProp sem)

/-- One iteration of a PHASE-2 table-reference loop: create the node if the
asset is new at file level and not already created with type mapping, and
always append the read/write edge. -/
def refTableStep (cfg : Cfg) (pathStr opId : Str) (props : List (String × Py))
    (edgeType : EdgeType) (st : List Node × List Edge × FState) (tbl : Str) :
    List Node × List Edge × FState :=
  if ¬ isFakeTable tbl ∧ ¬ isOracleFunctionP tbl then
    let assetId := lstr "table::" ++ tbl
    let nodes := st.1
    let edges := st.2.1
    let created := st.2.2.1
    let seen := st.2.2.2
    let newNode := ¬ seen.contains assetId ∧ ¬ created.contains tbl
    let nodes := if newNode then
        nodes ++ [makeNode cfg assetId .TABLE tbl props pathStr] else nodes
    let seen := if newNode then seen ++ [assetId] else seen
    (nodes, edges ++ [makeEdge opId assetId edgeType [] pathStr], (created, seen))
  else st

/-- One iteration of the PHASE-1 `CREATE TABLE` loop. -/
def createTableStep (cfg : Cfg) (pathStr opId block : Str)
    (st : List Node × List Edge × FState) (tnameRaw : Str) :
    List Node × List Edge × FState :=
  let tname := stripChar '"' tnameRaw
  if ¬ isFakeTable tname then
    let assetId := lstr "table::" ++ tname
    let extraction := extractCreateStatement block tname
    let lineNo := match extraction with
      | some e => e.1
      | none => 0
    let tableProps : List (String × Py) :=
      match extraction with
      | some (_, some cs) =>
        let props := [("create_statement", Py.s cs),
          ("table_source", Py.s (lstr "CREATE TABLE statement"))]
        let columnTypes := detectColumnTypesFromSql cs
        if columnTypes ≠ [] then
          props ++ [("type_mapping",
            typeMappingPy columnTypes [.SQL_SERVER, .POSTGRESQL, .MYSQL])]
        else props
      | _ => []
    let nodes := st.1
    let edges := st.2.1
    let created := st.2.2.1
    let seen := st.2.2.2
    let isNew := ¬ seen.contains assetId
    let nodes := if isNew then
        nodes ++ [makeNode cfg assetId .TABLE tname tableProps []] else nodes
    let seen := if isNew then seen ++ [assetId] else seen
    let created := if created.contains tname then created else created ++ [tname]
    let edges := edges ++ [makeEdge opId assetId .WRITES_TO
      [("operation_type", Py.s (lstr "CREATE_TABLE")), ("source_file", Py.s pathStr),
       ("line_number", Py.n lineNo)] pathStr]
    (nodes, edges, (created, seen))
  else st

/-- One iteration of the procedure-call detection loop. -/
def callStep (opId block : Str) (tablesInBlock : List Str) (cfg : Cfg)
    (st : List Node × List Edge × FState) (m : Nat × Nat × Caps) :
    List Node × List Edge × FState :=
  let callee := (capStr block m.2.2 1).getD []
  let low := lowS callee
  if isReserved low ∨ tablesInBlock.contains low then st
  else
    let leftCtx := lowS (slice block (m.1 - 40) m.1)
    if containsSub leftCtx (lstr "insert into") ∨
        containsSub leftCtx (lstr "update") ∨
        containsSub leftCtx (lstr "merge into") ∨
        containsSub leftCtx (lstr "delete from") then st
    else if containsSub leftCtx (lstr "create ") ∨
        containsSub leftCtx (lstr "alter ") ∨
        containsSub leftCtx (lstr "comment ") ∨
        containsSub leftCtx (lstr "prompt ") then st
    else
      let calleeId := lstr "plsql::" ++ callee
      (st.1 ++ [makeNode cfg calleeId .OPERATION callee [] []],
       st.2.1 ++ [makeEdge opId calleeId .DEPENDS_ON [] []], st.2.2)

/-- The `name` lookup of the ensure-table-nodes part of the semantics loop. -/
def joinSideName (jkv : List (String × Py)) (key : String) : Option Str :=
  match pyGet jkv key with
  | some (.dct t) => pyGetStrTruthy t "name"
  | _ => none

/-- Ensure a table node exists for one side of a join (the semantics loop's
node creation). -/
def ensureJoinNode (cfg : Cfg) (st : List Node × List Edge × FState) (nm : Str) :
    List Node × List Edge × FState :=
  let aId := lstr "table::" ++ nm
  let created := st.2.2.1
  let seen := st.2.2.2
  if ¬ seen.contains aId then
    (st.1 ++ [makeNode cfg aId .TABLE nm
      (if ¬ created.contains nm then [("table_source", Py.s (lstr "referenced"))]
       else []) []],
     st.2.1, (created, seen ++ [aId]))
  else st

/-- The processing the semantics loop performs for one statement's
(schema-normalized) semantics dict: ensure table nodes and reads edges, emit
join `References` edges deduplicated per statement by the `(left, right)`
pair, and append the inline-view lineage edges — each join edge and lineage
edge passing `_validate_edge_for_serialization` first. -/
def semanticsDictStep (cfg : Cfg) (opId : Str)
    (st : List Node × List Edge × FState) (semDict : Py) :
    List Node × List Edge × FState :=
  let kvs := match semDict with | .dct x => x | _ => []
  let tablesPy := match pyGet kvs "tables" with | some (.lst l) => l | _ => []
  let st := tablesPy.foldl (fun (st : List Node × List Edge × FState) t =>
    let tkv := match t with | .dct x => x | _ => []
    match pyGetStrTruthy tkv "name" with
    | some tn =>
      if ¬ isFakeTable tn then
        let assetId := lstr "table::" ++ tn
        let created := st.2.2.1
        let seen := st.2.2.2
        let st := if ¬ seen.contains assetId then
            (st.1 ++ [makeNode cfg assetId .TABLE tn
              (if ¬ created.contains tn then
                [("table_source", Py.s (lstr "referenced"))] else []) []],
             st.2.1, (created, seen ++ [assetId]))
          else st
        (st.1, st.2.1 ++ [makeEdge opId assetId .READS_FROM [] []], st.2.2)
      else st
    | none => st) st
  let joinsPy := match pyGet kvs "joins" with | some (.lst l) => l | _ => []
  let afterJoins := joinsPy.foldl
    (fun (acc : (List Node × List Edge × FState) × List (Str × Str)) j =>
      let jkv := match j with | .dct x => x | _ => []
      match joinSideName jkv "left_table", joinSideName jkv "right_table" with
      | some l, some r =>
        if ¬ isFakeTable l ∧ ¬ isFakeTable r then
          let st := ensureJoinNode cfg (ensureJoinNode cfg acc.1 l) r
          if ¬ acc.2.contains (l, r) then
            let e := makeEdge (lstr "table::" ++ l) (lstr "table::" ++ r)
              .REFERENCES
              [("join_type", (pyGet jkv "join_type").getD (Py.s (lstr "INNER JOIN"))),
               ("condition", (pyGet jkv "condition").getD Py.non),
               ("relationship_type", Py.s (lstr "join_relationship"))] []
            if validateEdgeV e then
              ((st.1, st.2.1 ++ [e], st.2.2), acc.2 ++ [(l, r)])
            else (st, acc.2)
          else (st, acc.2)
        else acc
      | _, _ => acc)
    (st, ([] : List (Str × Str)))
  let st := afterJoins.1
  (resolveInlineViewLineage [semDict]).foldl
    (fun (st : List Node × List Edge × FState) e =>
      if validateEdgeV e then (st.1, st.2.1 ++ [e], st.2.2) else st) st

/-- The enhanced-semantics loop over the extracted statements, also
accumulating the `semantics_list` attached to the operation node. -/
def semanticsPhase (env : AstEnv) (cfg : Cfg) (opId block : Str)
    (st : List Node × List Edge × FState) :
    (List Node × List Edge × FState) × List Py :=
  (extractSqlStatements env block).foldl
    (fun (acc : (List Node × List Edge × FState) × List Py) stmt =>
      match parseSqlSemanticsV env stmt with
      | none => acc
      | some sem =>
        if sem.tables = [] then acc
        else
          let semDict := normalizeSchemaInSemantics (SqlSemantics.toPy sem)
          (semanticsDictStep cfg opId acc.1 semDict, acc.2 ++ [semDict]))
    (st, [])

/-- Attach the aggregated semantics to the (first) node carrying the
operation id, as `parse` does with its `for n in nodes: ... break` loop. -/
def setOpSemantics (nodes : List Node) (opId : Str) (semList : List Py) :
    List Node :=
  match nodes with
  | [] => []
  | n :: rest =>
    if n.node_id = opId then
      { n with properties := pySetK n.properties "sql_semantics" (.lst semList) } :: rest
    else n :: setOpSemantics rest opId semList

/-- The effective operation name (explicit task name, else the detected one). -/
def opNameOf (block opName : Str) : Str :=
  let taskName := extractTaskNameFromBlock block
  if taskName ≠ lstr "anonymous_block" then taskName else opName

/-- The operation node id built in `parse`. -/
def opIdOf (pathName block opName : Str) : Str :=
  lstr "plsql::" ++ pathName ++ lstr "::" ++ opNameOf block opName

/-- The raw (pre-validation, pre-deduplication) nodes and edges one operation
span contributes, together with the updated file-level state. -/
def opRaw (env : AstEnv) (cfg : Cfg) (pathStr pathName stem raw opName : Str)
    (start stop : Nat) (fst : FState) : (List Node × List Edge) × FState :=
  let block := slice raw start stop
  let pipelineId := lstr "plsql::" ++ pathName
  let sqlStatements := extractSqlStatements env block
  let taskName := extractTaskNameFromBlock block
  let actualOpName := opNameOf block opName
  let opId := opIdOf pathName block opName
  let operationSubtype := categorizeOperationSubtype sqlStatements
  let columnLineage := extractComprehensiveColumnLineage env sqlStatements
  let cursorLineage := extractCursorColumnLineage env block
  let errorInfo := detectErrorHandling block
  let opProps := [("file", Py.s pathStr), ("operation_subtype", Py.s operationSubtype),
    ("sql_statements_count", Py.n sqlStatements.length),
    ("block_size", Py.n (stop - start)), ("task_name", Py.s actualOpName),
    ("has_explicit_task_name", Py.b (taskName ≠ lstr "anonymous_block"))]
  let opProps := if columnLineage.length ≠ 0 then
      opProps ++ [("column_lineage", Py.lst columnLineage),
        ("total_column_mappings", Py.n columnLineage.length)]
    else opProps
  let opProps := if cursorLineage.length ≠ 0 then
      opProps ++ [("cursor_lineage", Py.lst cursorLineage),
        ("has_load_operations", Py.b true),
        ("cursor_count", Py.n cursorLineage.length)]
    else opProps
  let opProps := if errorInfo.has_error_handling then
      opProps ++ [("error_handling", errorInfo.toPy)]
    else opProps
  let nodes := [makeNode cfg opId .OPERATION actualOpName opProps pathStr,
    makeNode cfg pipelineId .PIPELINE stem
      [("file", Py.s pathStr), ("technology", Py.s (lstr "ORACLE"))] pathStr]
  let edges := [makeEdge pipelineId opId .CONTAINS [] pathStr]
  let st : List Node × List Edge × FState := (nodes, edges, fst)
  let st := ((rxFindIter createTableRe block).map
    (fun m => (capStr block m.2.2 1).getD [])).foldl
    (createTableStep cfg pathStr opId block) st
  let selProps := selectReadTableProps env block
  let st := (extractTablesFromSelect block).foldl
    (refTableStep cfg pathStr opId selProps .READS_FROM) st
  let rw := extractTablesFromDml block
  let readProps := dmlTableProps env block "DML_READ"
  let st := rw.1.foldl (refTableStep cfg pathStr opId readProps .READS_FROM) st
  let writeProps := dmlTableProps env block "DML_WRITE"
  let st := rw.2.foldl (refTableStep cfg pathStr opId writeProps .WRITES_TO) st
  let tablesInBlock := ((extractTablesFromSelect block).map lowS) ++
    (rw.1.map lowS) ++ (rw.2.map lowS)
  let st := (rxFindIter callRe block).foldl
    (callStep opId block tablesInBlock cfg) st
  let semRes := semanticsPhase env cfg opId block st
  let st := semRes.1
  let st := if semRes.2.length ≠ 0 then
      (setOpSemantics st.1 opId semRes.2, st.2.1, st.2.2)
    else st
  let st := cfg.connections.foldl
    (fun (st : List Node × List Edge × FState) ci =>
      let cnode := makeNode cfg (lstr "connection::" ++ ci.1) .CONNECTION ci.1
        [("connection_string", (pyGet ci.2 "connection_string").getD (Py.s [])),
         ("database", (pyGet ci.2 "database").getD (Py.s [])),
         ("server", (pyGet ci.2 "server").getD (Py.s [])),
         ("port", (pyGet ci.2 "port").getD (Py.s [])),
         ("technology", Py.s (lstr "ORACLE"))] pathStr
      let ce := makeEdge pipelineId (lstr "connection::" ++ ci.1) .USES
        [("connection_type", Py.s (lstr "oracle"))] pathStr
      (st.1 ++ [cnode], st.2.1 ++ [ce], st.2.2)) st
  let st := cfg.parameters.foldl
    (fun (st : List Node × List Edge × FState) pr =>
      let pnode := makeNode cfg (lstr "parameter::" ++ pr.1) .PARAMETER pr.1
        [("parameter_value", (pyGet pr.2 "value").getD (Py.s [])),
         ("parameter_type", (pyGet pr.2 "type").getD (Py.s (lstr "VARCHAR2"))),
         ("source_file", (pyGet pr.2 "source_file").getD (Py.s pathStr)),
         ("technology", Py.s (lstr "ORACLE"))] pathStr
      let pe := makeEdge pipelineId (lstr "parameter::" ++ pr.1) .USES
        [("parameter_usage", Py.s (lstr "oracle_define"))] pathStr
      (st.1 ++ [pnode], st.2.1 ++ [pe], st.2.2)) st
  ((st.1, st.2.1), st.2.2)

/-! ### Validation, deduplication, and the full per-file parse -/

def nodeKey (n : Node) : Str × NodeType := (n.node_id, n.node_type)

def edgeKey (e : Edge) : Str × Str × EdgeType := (e.source_id, e.target_id, e.relation)

/-- First-occurrence-ordered key list. -/
def dedupKeysFirst {κ : Type} [DecidableEq κ] (l : List κ) : List κ :=
  l.foldl (fun acc x => if acc.contains x then acc else acc ++ [x]) []

/-- The last element with a given key (the value a Python dict comprehension
keeps). -/
def lastWithKey {α κ : Type} [DecidableEq κ] (key : α → κ) (l : List α) (k : κ) :
    Option α :=
  (l.filter (fun x => key x = k)).getLast?

/-- `{ key(x): x for x in l }.values()`: first-occurrence key order, last
value per key. -/
def dedupByKey {α κ : Type} [DecidableEq κ] (key : α → κ) (l : List α) : List α :=
  (dedupKeysFirst (l.map key)).filterMap (lastWithKey key l)

def dedupNodes (l : List Node) : List Node := dedupByKey nodeKey l

def dedupEdges (l : List Edge) : List Edge := dedupByKey edgeKey l

/-- The validation filter plus identity-key deduplication applied to each
batch before it is yielded. -/
def validateAndDedup (b : List Node × List Edge) : List Node × List Edge :=
  (dedupNodes (b.1.filterMap validateNodeV), dedupEdges (b.2.filter validateEdgeV))

/-- One yielded batch. -/
def opBatch (env : AstEnv) (cfg : Cfg) (pathStr pathName stem raw opName : Str)
    (start stop : Nat) (fst : FState) : (List Node × List Edge) × FState :=
  let r := opRaw env cfg pathStr pathName stem raw opName start stop fst
  (validateAndDedup r.1, r.2)

/-- `Path(file_path).name`. -/
def pathNameOf (p : Str) : Str := ((splitOnC '/' p).reverse).headD p

/-- `Path(name).stem`. -/
def stemOf (n : Str) : Str :=
  match (List.range n.length).filter (fun i => nthc n i = some '.') with
  | [] => n
  | idxs => let i := idxs.reverse.headD 0
            if i > 0 then n.take i else n

/-- The operation spans `parse` processes: the detected ones, or a single
anonymous whole-file span when the file has DML/DDL signal but no detected
operation. -/
def parseOps (raw : Str) : List (Str × Nat × Nat) :=
  let ops := detectOperations raw
  if ops = [] then
    if hasDmlSignal raw then [(lstr "anonymous_block", 0, raw.length)] else []
  else ops

/-- The batches of `CanonicalPlsqlParser.parse` for one file (value level):
one `(nodes, edges)` pair per operation span, with the file-level state
threaded left to right. -/
def parseBatches (env : AstEnv) (cfg : Cfg) (filePath text : Str) :
    List (List Node × List Edge) :=
  let pathName := pathNameOf filePath
  let stem := stemOf pathName
  let raw := stripComments text
  ((parseOps raw).foldl
    (fun (acc : List (List Node × List Edge) × FState) op =>
      let r := opBatch env cfg filePath pathName stem raw op.1 op.2.1 op.2.2 acc.2
      (acc.1 ++ [r.1], r.2))
    ([], ([], []))).1

/-- The validation-report counters, modelled as a cumulative counter map.
Only the parser-level counters are tracked; the `EnhancedPlsqlParser`'s
write-only counters are analogous mutable state that no result ever reads. -/
abbrev Report := List (String × Nat)

def bumpR (r : Report) (k : String) (d : Nat) : Report :=
  if (r.find? (fun e => e.1 = k)).isSome then
    r.map (fun e => if e.1 = k then (k, e.2 + d) else e)
  else r ++ [(k, d)]

/-- Keyword aliases the validation strip removes from one kept node. -/
def strippedAliasCount (n : Node) : Nat :=
  match pyGet n.properties "sql_semantics" with
  | some (.lst sems) =>
    (sems.map (fun semEntry =>
      match semEntry with
      | .dct kvs =>
        match pyGet kvs "tables" with
        | some (.lst ts) =>
          (ts.map (fun t =>
            match t with
            | .dct tkv =>
              match pyGet tkv "alias" with
              | some (.s a) =>
                if a ≠ [] ∧ SQL_KEYWORDS.contains (lowS a) then 1 else 0
              | _ => 0
            | _ => 0)).sum
        | _ => 0
      | _ => 0)).sum
  | _ => 0

/-- The report update of one `parse` call: the file counter plus the
validation-rejection counters recomputed from the raw node lists. -/
def parseReportUpd (env : AstEnv) (cfg : Cfg) (filePath text : Str) (r : Report) :
    Report :=
  let r := bumpR r "total_files_processed" 1
  let pathName := pathNameOf filePath
  let stem := stemOf pathName
  let raw := stripComments text
  let allNodes := (((parseOps raw).foldl
    (fun (acc : List Node × FState) op =>
      let x := opRaw env cfg filePath pathName stem raw op.1 op.2.1 op.2.2 acc.2
      (acc.1 ++ x.1.1, x.2))
    ([], ([], [])))).1
  let fakeCount := (allNodes.filter (fun n =>
    n.node_type = .TABLE ∧ isFakeTable n.name)).length
  let fnCount := (allNodes.filter (fun n =>
    n.node_type = .TABLE ∧ ¬ isFakeTable n.name ∧ isOracleFunctionP n.name)).length
  let kwCount := ((allNodes.filter (fun n => (validateNodeV n).isSome)).map
    strippedAliasCount).sum
  bumpR (bumpR (bumpR r "fake_tables_rejected" fakeCount)
    "oracle_functions_rejected" fnCount) "keyword_aliases_removed" kwCount

/-- `CanonicalPlsqlParser.parse`, fully consumed: the yielded batches plus
the parser's mutable validation-report state after the call.  The batch
component never reads the incoming report — the factorization below is the
formal record of that. -/
def parseFile (env : AstEnv) (cfg : Cfg) (filePath text : Str) (r : Report) :
    List (List Node × List Edge) × Report :=
  (parseBatches env cfg filePath text, parseReportUpd env cfg filePath text r)

end Mz

-- ===================================================================
-- THEOREMS
-- ===================================================================

namespace Mz

/-! ## Confidence-bound lemmas for `enrich_column_properties` -/

theorem enrichPlatformStep_conf_le (ct : CanonicalDataType) (ti : TypeInfo)
    (acc : List (Str × Str) × ℚ × List Str) (p : TargetPlatform) :
    (enrichPlatformStep ct ti acc p).2.1 ≤ acc.2.1 := by
  unfold enrichPlatformStep
  dsimp only
  split
  · exact qmin_le_left _ _
  · exact le_refl _

theorem enrichPlatformStep_conf_nonneg (ct : CanonicalDataType) (ti : TypeInfo)
    (acc : List (Str × Str) × ℚ × List Str) (p : TargetPlatform)
    (h : 0 ≤ acc.2.1) : 0 ≤ (enrichPlatformStep ct ti acc p).2.1 := by
  unfold enrichPlatformStep
  dsimp only
  split
  · exact le_qmin h (by norm_num)
  · exact h

theorem enrichLoop_conf_le (ct : CanonicalDataType) (ti : TypeInfo)
    (l : List TargetPlatform) (acc : List (Str × Str) × ℚ × List Str) :
    (l.foldl (enrichPlatformStep ct ti) acc).2.1 ≤ acc.2.1 := by
  induction l generalizing acc with
  | nil => exact le_refl _
  | cons p rest ih =>
    exact le_trans (ih (enrichPlatformStep ct ti acc p))
      (enrichPlatformStep_conf_le ct ti acc p)

theorem enrichLoop_conf_nonneg (ct : CanonicalDataType) (ti : TypeInfo)
    (l : List TargetPlatform) (acc : List (Str × Str) × ℚ × List Str)
    (h : 0 ≤ acc.2.1) : 0 ≤ (l.foldl (enrichPlatformStep ct ti) acc).2.1 := by
  induction l generalizing acc with
  | nil => exact h
  | cons p rest ih =>
    exact ih (enrichPlatformStep ct ti acc p) (enrichPlatformStep_conf_nonneg ct ti acc p h)


/-- Bounds of the confidence pipeline of `enrich_column_properties`, with the
loop result abstracted. -/
theorem confPipeline_bounds (b1 b2 b3 : Prop) [Decidable b1] [Decidable b2]
    [Decidable b3] (c0 : ℚ) (h0 : 0 ≤ c0) (h1 : c0 ≤ 1) :
    0 ≤ (if b3 then
        qmin (if b2 then qmin (if b1 then mkRat 3 10 else c0) (mkRat 7 10)
          else (if b1 then mkRat 3 10 else c0)) (mkRat 4 5)
        else (if b2 then qmin (if b1 then mkRat 3 10 else c0) (mkRat 7 10)
          else (if b1 then mkRat 3 10 else c0))) ∧
      (if b3 then
        qmin (if b2 then qmin (if b1 then mkRat 3 10 else c0) (mkRat 7 10)
          else (if b1 then mkRat 3 10 else c0)) (mkRat 4 5)
        else (if b2 then qmin (if b1 then mkRat 3 10 else c0) (mkRat 7 10)
          else (if b1 then mkRat 3 10 else c0))) ≤ 1 := by
  have k1 : 0 ≤ (if b1 then mkRat 3 10 else c0) ∧
      (if b1 then mkRat 3 10 else c0) ≤ 1 := by
    split
    · exact ⟨by decide, by decide⟩
    · exact ⟨h0, h1⟩
  have k2 : 0 ≤ (if b2 then qmin (if b1 then mkRat 3 10 else c0) (mkRat 7 10)
        else (if b1 then mkRat 3 10 else c0)) ∧
      (if b2 then qmin (if b1 then mkRat 3 10 else c0) (mkRat 7 10)
        else (if b1 then mkRat 3 10 else c0)) ≤ 1 := by
    split
    · exact ⟨le_qmin k1.1 (by decide), le_trans (qmin_le_left _ _) k1.2⟩
    · exact k1
  split
  · exact ⟨le_qmin k2.1 (by decide), le_trans (qmin_le_left _ _) k2.2⟩
  · exact k2

/-- When the first condition holds and the second fails, the confidence
pipeline returns exactly `0.3`. -/
theorem confPipeline_unknown (b1 b2 b3 : Prop) [Decidable b1] [Decidable b2]
    [Decidable b3] (c0 : ℚ) (hb1 : b1) (hb2 : ¬b2) :
    (if b3 then
        qmin (if b2 then qmin (if b1 then mkRat 3 10 else c0) (mkRat 7 10)
          else (if b1 then mkRat 3 10 else c0)) (mkRat 4 5)
        else (if b2 then qmin (if b1 then mkRat 3 10 else c0) (mkRat 7 10)
          else (if b1 then mkRat 3 10 else c0))) = 3 / 10 := by
  rw [if_pos hb1, if_neg hb2]
  split
  · rw [qmin_eq_left (by decide), Rat.mkRat_eq_div]; norm_num
  · rw [Rat.mkRat_eq_div]; norm_num

/-- C3.  For every input to `enrich_column_properties` (any Oracle type
string, any nullable/default arguments, any list of target platforms) the
returned `conversion_confidence` lies in `[0, 1]`; and whenever the parsed
base type resolves to the canonical type `UNKNOWN`, the returned
`conversion_confidence` is exactly `0.3`. -/
theorem enrich_confidence_bounds_and_unknown (oracleType : Str)
    (nullable : Option Bool) (defaultValue : Option Str)
    (targetPlatforms : Option (List TargetPlatform)) :
    (0 ≤ (enrichColumnProperties oracleType nullable defaultValue
        targetPlatforms).conversion_confidence ∧
      (enrichColumnProperties oracleType nullable defaultValue
        targetPlatforms).conversion_confidence ≤ 1) ∧
    (getCanonicalType oracleType = .UNKNOWN →
      (enrichColumnProperties oracleType nullable defaultValue
        targetPlatforms).conversion_confidence = 3 / 10) := by
  have hle := enrichLoop_conf_le (getCanonicalType oracleType)
    (parseOracleType oracleType)
    (targetPlatforms.getD [.SQL_SERVER, .POSTGRESQL, .MYSQL]) ([], mkRat 1 1, [])
  have hge := enrichLoop_conf_nonneg (getCanonicalType oracleType)
    (parseOracleType oracleType)
    (targetPlatforms.getD [.SQL_SERVER, .POSTGRESQL, .MYSQL]) ([], mkRat 1 1, [])
    (by decide)
  constructor
  · exact confPipeline_bounds _ _ _ _ hge (le_trans hle (by decide))
  · intro hu
    refine confPipeline_unknown _ _ _ _ hu ?_
    rw [hu]
    decide

/-- C3 witness: a concrete unmapped base type. -/
theorem enrich_confidence_bounds_and_unknown_witness :
    getCanonicalType (lstr "FOOBAR") = .UNKNOWN ∧
    (0 ≤ (enrichColumnProperties (lstr "FOOBAR") none none
        none).conversion_confidence ∧
      (enrichColumnProperties (lstr "FOOBAR") none none
        none).conversion_confidence ≤ 1) ∧
    (enrichColumnProperties (lstr "FOOBAR") none none
      none).conversion_confidence = 3 / 10 :=
  ⟨by decide,
    (enrich_confidence_bounds_and_unknown (lstr "FOOBAR") none none none).1,
    (enrich_confidence_bounds_and_unknown (lstr "FOOBAR") none none none).2 (by decide)⟩

/-- When the second (Oracle-specific) condition of the confidence pipeline
holds, the result is at most `0.7`. -/
theorem confPipeline_cap (b1 b2 b3 : Prop) [Decidable b1] [Decidable b2]
    [Decidable b3] (c0 : ℚ) (hb2 : b2) :
    (if b3 then
        qmin (if b2 then qmin (if b1 then mkRat 3 10 else c0) (mkRat 7 10)
          else (if b1 then mkRat 3 10 else c0)) (mkRat 4 5)
        else (if b2 then qmin (if b1 then mkRat 3 10 else c0) (mkRat 7 10)
          else (if b1 then mkRat 3 10 else c0))) ≤ 7 / 10 := by
  have h710 : (mkRat 7 10 : ℚ) = 7 / 10 := by rw [Rat.mkRat_eq_div]; norm_num
  rw [if_pos hb2, ← h710]
  split
  · exact le_trans (qmin_le_left _ _) (qmin_le_right _ _)
  · exact qmin_le_right _ _

/-- C4 (amended).  For every call to `enrich_column_properties` whose
canonical type is one of `Rowid`, `Urowid`, `RefCursor` (the Oracle-specific
types the confidence cap in the source actually tests, besides `XmlType`),
the returned `conversion_confidence` is at most `0.7`.  The claim's fourth
type, `Interval`, is *not* in the capped set — see the counterexample. -/
theorem enrich_oracle_specific_cap (oracleType : Str) (nullable : Option Bool)
    (defaultValue : Option Str) (targetPlatforms : Option (List TargetPlatform))
    (h : getCanonicalType oracleType = .ROWID ∨
      getCanonicalType oracleType = .UROWID ∨
      getCanonicalType oracleType = .REF_CURSOR) :
    (enrichColumnProperties oracleType nullable defaultValue
      targetPlatforms).conversion_confidence ≤ 7 / 10 := by
  refine confPipeline_cap _ _ _ _ ?_
  rcases h with h | h | h <;> rw [h] <;> decide

/-- C4 witness: `ROWID` maps to canonical `Rowid` and is capped at `0.7`
(with the default platform list the cap is in fact attained). -/
theorem enrich_oracle_specific_cap_witness :
    getCanonicalType (lstr "ROWID") = .ROWID ∧
    (enrichColumnProperties (lstr "ROWID") none none
      none).conversion_confidence ≤ 7 / 10 ∧
    (enrichColumnProperties (lstr "ROWID") none none
      none).conversion_confidence = 7 / 10 :=
  ⟨by decide,
    enrich_oracle_specific_cap (lstr "ROWID") none none none (Or.inl (by decide)),
    by rw [show (enrichColumnProperties (lstr "ROWID") none none
        none).conversion_confidence = mkRat 7 10 from by decide, Rat.mkRat_eq_div]
       norm_num⟩

/-- C4 counterexample.  The type declaration `"INTERVAL YEAR TO MONTH\nX"`
parses (through the backtracking of `parse_oracle_type`'s pattern, whose `.`
cannot cross the newline) to base type `INTERVAL YEAR TO MONTH`, i.e. to
canonical `Interval` — which `_is_oracle_specific` classifies as
Oracle-specific — yet with an empty target-platform list the returned
confidence is `1.0 > 0.7`: the cap in `enrich_column_properties` tests
`XMLTYPE` instead of `INTERVAL`. -/
theorem enrich_interval_escapes_cap :
    getCanonicalType (lstr "INTERVAL YEAR TO MONTH\nX") = .INTERVAL ∧
    isOracleSpecific .INTERVAL = true ∧
    (enrichColumnProperties (lstr "INTERVAL YEAR TO MONTH\nX") none none
      (some [])).conversion_confidence = 1 ∧
    ¬ ((enrichColumnProperties (lstr "INTERVAL YEAR TO MONTH\nX") none none
      (some [])).conversion_confidence ≤ 7 / 10) := by
  refine ⟨by decide, by decide, by decide, ?_⟩
  intro hcontra
  rw [show (enrichColumnProperties (lstr "INTERVAL YEAR TO MONTH\nX") none none
    (some [])).conversion_confidence = (1 : ℚ) from by decide] at hcontra
  norm_num at hcontra

/-- No platform template mentions `{length}` together with `{precision}` or
`{scale}`. -/
theorem template_placeholder_exclusive (c : CanonicalDataType) (p : TargetPlatform)
    (h : containsSub (platformTemplate c p) (lstr "{length}") = true) :
    containsSub (platformTemplate c p) (lstr "{precision}") = false ∧
    containsSub (platformTemplate c p) (lstr "{scale}") = false := by
  revert h
  revert p
  revert c
  decide

/-- C10.  When `get_platform_type` is called for a `(canonical, platform)`
pair whose template contains the `{length}` placeholder but the length
argument is `None` or `0`, the returned string still contains the literal
placeholder text: placeholders are substituted only when the argument is
present and non-zero. -/
theorem get_platform_type_keeps_placeholder (c : CanonicalDataType)
    (p : TargetPlatform) (length precision scale : Option Nat)
    (hlen : length = none ∨ length = some 0)
    (htpl : containsSub (platformTemplate c p) (lstr "{length}") = true) :
    containsSub (getPlatformType c p length precision scale)
      (lstr "{length}") = true := by
  have hx := template_placeholder_exclusive c p htpl
  have h1 : substPlaceholder (lstr "{length}") length (platformTemplate c p) =
      platformTemplate c p := by
    rcases hlen with h | h <;> subst h
    · rfl
    · simp [substPlaceholder]
  have h2 : substPlaceholder (lstr "{precision}") precision (platformTemplate c p) =
      platformTemplate c p := by
    cases precision with
    | none => rfl
    | some n => simp [substPlaceholder, hx.1]
  have h3 : substPlaceholder (lstr "{scale}") scale (platformTemplate c p) =
      platformTemplate c p := by
    cases scale with
    | none => rfl
    | some n => simp [substPlaceholder, hx.2]
  simp only [getPlatformType]
  rw [h1, h2, h3]
  exact htpl

/-- An environment in which `sqlglot` is importable but its statement parse
always raises. -/
def raisingAst : AstEnv := ⟨true, fun _ => .raised, fun _ => false⟩

/-- C8.  `parse_sql_semantics` returns a `SqlSemantics` value or `None` and
never propagates an exception: in the embedding every fallible step is an
`AstOutcome`, the result is `None` exactly for the empty query, and whenever
the AST parse of a statement raises, the function returns the result of the
regex-based extraction instead of failing. -/
theorem parse_sql_semantics_never_raises (env : AstEnv) (sql : Str) :
    ((parseSqlSemanticsV env sql) = none ↔ sql = []) ∧
    (env.hasSqlglot = true → env.ast (normalizeSql sql) = .raised → sql ≠ [] →
      parseSqlSemanticsV env sql =
        some (extractSemanticsWithRegex (normalizeSql sql))) := by
  constructor
  · by_cases h : sql = []
    · simp [parseSqlSemanticsV, h]
    · simp only [parseSqlSemanticsV, if_neg h]
      constructor
      · intro hc
        exfalso
        revert hc
        split
        · split <;> simp
        · simp
      · intro hc
        exact absurd hc h
  · intro hg hr hne
    simp [parseSqlSemanticsV, if_neg hne, hg, hr]

/-- C8 witness: with a raising AST environment, a concrete statement falls
back to the regex extraction. -/
theorem parse_sql_semantics_never_raises_witness :
    (raisingAst.hasSqlglot = true ∧
      raisingAst.ast (normalizeSql (lstr "SELECT x FROM t")) = .raised ∧
      lstr "SELECT x FROM t" ≠ []) ∧
    parseSqlSemanticsV raisingAst (lstr "SELECT x FROM t") ≠ none ∧
    parseSqlSemanticsV raisingAst (lstr "SELECT x FROM t") =
      some (extractSemanticsWithRegex (normalizeSql (lstr "SELECT x FROM t"))) := by
  refine ⟨⟨rfl, rfl, by decide⟩, ?_, ?_⟩
  · intro hc
    exact absurd ((parse_sql_semantics_never_raises raisingAst
      (lstr "SELECT x FROM t")).1.mp hc) (by decide)
  · exact (parse_sql_semantics_never_raises raisingAst
      (lstr "SELECT x FROM t")).2 rfl rfl (by decide)

/-- C10 witness: canonical `Varchar` for SQL Server with no length renders
the template verbatim as `varchar({length})`. -/
theorem get_platform_type_keeps_placeholder_witness :
    containsSub (getPlatformType .VARCHAR .SQL_SERVER none none none)
      (lstr "{length}") = true ∧
    getPlatformType .VARCHAR .SQL_SERVER none none none = lstr "varchar({length})" :=
  ⟨get_platform_type_keeps_placeholder .VARCHAR .SQL_SERVER none none none
      (Or.inl rfl) (by decide),
    by decide⟩

end Mz

namespace Mz

/-! ### Properties of the identity-key deduplication -/

theorem mem_dedupKeysFirst_aux {κ : Type} [DecidableEq κ] (l : List κ) :
    ∀ (acc : List κ) (x : κ),
      (x ∈ l.foldl (fun acc y => if acc.contains y then acc else acc ++ [y]) acc ↔
        x ∈ acc ∨ x ∈ l) := by
  induction l with
  | nil => intro acc x; simp
  | cons a t ih =>
    intro acc x
    simp only [List.foldl_cons]
    by_cases h : acc.contains a
    · rw [if_pos h, ih]
      have ha : a ∈ acc := by simpa using h
      simp only [List.mem_cons]
      constructor
      · rintro (h1 | h1)
        · exact Or.inl h1
        · exact Or.inr (Or.inr h1)
      · rintro (h1 | h1 | h1)
        · exact Or.inl h1
        · exact Or.inl (h1 ▸ ha)
        · exact Or.inr h1
    · rw [if_neg h, ih]
      simp only [List.mem_append, List.mem_singleton, List.mem_cons]
      tauto

theorem mem_dedupKeysFirst {κ : Type} [DecidableEq κ] (l : List κ) (x : κ) :
    x ∈ dedupKeysFirst l ↔ x ∈ l := by
  unfold dedupKeysFirst
  rw [mem_dedupKeysFirst_aux]
  simp

theorem nodup_dedupKeysFirst_aux {κ : Type} [DecidableEq κ] (l : List κ) :
    ∀ (acc : List κ), acc.Nodup →
      (l.foldl (fun acc y => if acc.contains y then acc else acc ++ [y]) acc).Nodup := by
  induction l with
  | nil => intro acc h; simpa using h
  | cons a t ih =>
    intro acc h
    simp only [List.foldl_cons]
    by_cases hc : acc.contains a
    · rw [if_pos hc]; exact ih acc h
    · rw [if_neg hc]
      refine ih _ ?_
      have ha : a ∉ acc := by simpa using hc
      simp [List.nodup_append, h, ha]

theorem nodup_dedupKeysFirst {κ : Type} [DecidableEq κ] (l : List κ) :
    (dedupKeysFirst l).Nodup := by
  unfold dedupKeysFirst
  exact nodup_dedupKeysFirst_aux l [] List.nodup_nil

theorem mem_of_getLastEq {α : Type} (l : List α) (x : α)
    (h : l.getLast? = some x) : x ∈ l := by
  rcases List.mem_getLast?_eq_getLast (show x ∈ l.getLast? from h) with ⟨hne, hx⟩
  rw [hx]
  exact List.getLast_mem hne

theorem lastWithKey_eq_some {α κ : Type} [DecidableEq κ] (key : α → κ)
    (l : List α) (k : κ) (h : k ∈ l.map key) :
    ∃ x, lastWithKey key l k = some x ∧ key x = k ∧ x ∈ l := by
  unfold lastWithKey
  obtain ⟨a, ha, hk⟩ := List.mem_map.mp h
  have hne : l.filter (fun x => key x = k) ≠ [] := by
    intro hemp
    have : a ∈ l.filter (fun x => key x = k) :=
      List.mem_filter.mpr ⟨ha, by simp [hk]⟩
    rw [hemp] at this
    cases this
  obtain ⟨x, hx⟩ := Option.isSome_iff_exists.mp (List.getLast?_isSome.mpr hne)
  have hmem := mem_of_getLastEq _ _ hx
  have := List.mem_filter.mp hmem
  exact ⟨x, hx, by simpa using this.2, this.1⟩

theorem mem_of_mem_dedupByKey {α κ : Type} [DecidableEq κ] (key : α → κ)
    (l : List α) (x : α) (h : x ∈ dedupByKey key l) : x ∈ l := by
  unfold dedupByKey at h
  obtain ⟨k, _, hx⟩ := List.mem_filterMap.mp h
  unfold lastWithKey at hx
  exact (List.mem_filter.mp (mem_of_getLastEq _ _ hx)).1

theorem dedupByKey_exists_of_mem {α κ : Type} [DecidableEq κ] (key : α → κ)
    (l : List α) (k : κ) (h : k ∈ l.map key) :
    ∃ x, x ∈ dedupByKey key l ∧ key x = k := by
  obtain ⟨x, hsome, hkey, _⟩ := lastWithKey_eq_some key l k h
  refine ⟨x, ?_, hkey⟩
  unfold dedupByKey
  exact List.mem_filterMap.mpr ⟨k, (mem_dedupKeysFirst _ _).mpr h, hsome⟩

theorem map_key_filterMap_lastWithKey {α κ : Type} [DecidableEq κ] (key : α → κ)
    (l : List α) : ∀ (ks : List κ), (∀ k, k ∈ ks → k ∈ l.map key) →
      (ks.filterMap (lastWithKey key l)).map key = ks := by
  intro ks
  induction ks with
  | nil => intro _; simp
  | cons a t ih =>
    intro h
    obtain ⟨x, hsome, hkey, _⟩ := lastWithKey_eq_some key l a (h a (List.mem_cons_self a t))
    rw [List.filterMap_cons, hsome]
    simp only [List.map_cons, hkey]
    rw [ih (fun k hk => h k (List.mem_cons_of_mem a hk))]

theorem map_key_dedupByKey {α κ : Type} [DecidableEq κ] (key : α → κ) (l : List α) :
    (dedupByKey key l).map key = dedupKeysFirst (l.map key) := by
  unfold dedupByKey
  exact map_key_filterMap_lastWithKey key l _
    (fun k hk => (mem_dedupKeysFirst _ _).mp hk)

theorem nodup_keys_dedupByKey {α κ : Type} [DecidableEq κ] (key : α → κ) (l : List α) :
    ((dedupByKey key l).map key).Nodup := by
  rw [map_key_dedupByKey]
  exact nodup_dedupKeysFirst _

theorem length_filter_key_of_nodup {α κ : Type} [DecidableEq κ] (key : α → κ)
    (k : κ) : ∀ (xs : List α), (xs.map key).Nodup →
      ((xs.filter (fun x => key x = k)).length = if k ∈ xs.map key then 1 else 0) := by
  intro xs
  induction xs with
  | nil => intro _; simp
  | cons a t ih =>
    intro hnd
    rw [List.map_cons, List.nodup_cons] at hnd
    by_cases hk : key a = k
    · rw [List.filter_cons_of_pos (by simp [hk])]
      have hnot : k ∉ t.map key := hk ▸ hnd.1
      rw [List.length_cons, ih hnd.2, if_neg hnot]
      simp [hk]
    · rw [List.filter_cons_of_neg (by simp [hk]), ih hnd.2]
      have hiff : k ∈ List.map key (a :: t) ↔ k ∈ List.map key t := by
        simp only [List.map_cons, List.mem_cons]
        constructor
        · rintro (h1 | h1)
          · exact absurd h1.symm hk
          · exact h1
        · exact Or.inr
      rw [if_congr hiff rfl rfl]

theorem length_filter_dedupByKey {α κ : Type} [DecidableEq κ] (key : α → κ)
    (l : List α) (k : κ) :
    ((dedupByKey key l).filter (fun x => key x = k)).length =
      if k ∈ l.map key then 1 else 0 := by
  rw [length_filter_key_of_nodup key k _ (nodup_keys_dedupByKey key l),
    map_key_dedupByKey, ]
  by_cases h : k ∈ l.map key
  · rw [if_pos ((mem_dedupKeysFirst _ _).mpr h), if_pos h]
  · rw [if_neg (fun hc => h ((mem_dedupKeysFirst _ _).mp hc)), if_neg h]

end Mz

namespace Mz

/-! ### Membership preservation through the assembly folds -/

theorem foldl_pres {α β : Type} (P : β → Prop) (step : β → α → β)
    (h : ∀ st x, P st → P (step st x)) :
    ∀ (l : List α) (st : β), P st → P (l.foldl step st) := by
  intro l
  induction l with
  | nil => intro st hp; exact hp
  | cons a t ih => intro st hp; exact ih _ (h st a hp)

theorem createTableStep_edge_mem (cfg : Cfg) (pathStr opId block : Str)
    (st : List Node × List Edge × FState) (t : Str) (e : Edge)
    (h : e ∈ st.2.1) : e ∈ (createTableStep cfg pathStr opId block st t).2.1 := by
  unfold createTableStep
  dsimp only
  split
  · exact List.mem_append_left _ h
  · exact h

theorem refTableStep_edge_mem (cfg : Cfg) (pathStr opId : Str)
    (props : List (String × Py)) (et : EdgeType)
    (st : List Node × List Edge × FState) (tbl : Str) (e : Edge)
    (h : e ∈ st.2.1) : e ∈ (refTableStep cfg pathStr opId props et st tbl).2.1 := by
  unfold refTableStep
  dsimp only
  split
  · exact List.mem_append_left _ h
  · exact h

theorem callStep_edge_mem (opId block : Str) (tablesInBlock : List Str)
    (cfg : Cfg) (st : List Node × List Edge × FState) (m : Nat × Nat × Caps)
    (e : Edge) (h : e ∈ st.2.1) :
    e ∈ (callStep opId block tablesInBlock cfg st m).2.1 := by
  unfold callStep
  dsimp only
  split
  · exact h
  · split
    · exact h
    · split
      · exact h
      · exact List.mem_append_left _ h

theorem ensureJoinNode_edges (cfg : Cfg) (st : List Node × List Edge × FState)
    (nm : Str) : (ensureJoinNode cfg st nm).2.1 = st.2.1 := by
  unfold ensureJoinNode
  dsimp only
  split
  · rfl
  · rfl

theorem semanticsDictStep_edge_mem (cfg : Cfg) (opId : Str)
    (st : List Node × List Edge × FState) (semDict : Py) (e : Edge)
    (h : e ∈ st.2.1) : e ∈ (semanticsDictStep cfg opId st semDict).2.1 := by
  unfold semanticsDictStep
  dsimp only
  apply foldl_pres (fun (st : List Node × List Edge × FState) => e ∈ st.2.1)
  · intro st x hp
    dsimp only
    split
    · exact List.mem_append_left _ hp
    · exact hp
  · apply foldl_pres
      (fun (acc : (List Node × List Edge × FState) × List (Str × Str)) =>
        e ∈ acc.1.2.1)
    · intro acc j hp
      dsimp only
      split
      · split
        · split
          · split
            · simp only [ensureJoinNode_edges]
              exact List.mem_append_left _ hp
            · simp only [ensureJoinNode_edges]
              exact hp
          · simp only [ensureJoinNode_edges]
            exact hp
        · exact hp
      · exact hp
    · show e ∈ (List.foldl _ st _).2.1
      apply foldl_pres (fun (st : List Node × List Edge × FState) => e ∈ st.2.1)
      · intro st x hp
        dsimp only
        split
        · split
          · refine List.mem_append_left _ ?_
            split
            · exact hp
            · exact hp
          · exact hp
        · exact hp
      · exact h

theorem semanticsPhase_edge_mem (env : AstEnv) (cfg : Cfg) (opId block : Str)
    (st : List Node × List Edge × FState) (e : Edge) (h : e ∈ st.2.1) :
    e ∈ (semanticsPhase env cfg opId block st).1.2.1 := by
  unfold semanticsPhase
  apply foldl_pres
    (fun (acc : (List Node × List Edge × FState) × List Py) => e ∈ acc.1.2.1)
  · intro acc stmt hp
    dsimp only
    split
    · exact hp
    · split
      · exact hp
      · exact semanticsDictStep_edge_mem _ _ _ _ _ hp
  · exact h

theorem refTableStep_adds_edge (cfg : Cfg) (pathStr opId : Str)
    (props : List (String × Py)) (et : EdgeType)
    (st : List Node × List Edge × FState) (tbl : Str)
    (hf : isFakeTable tbl = false) (ho : isOracleFunctionP tbl = false) :
    makeEdge opId (lstr "table::" ++ tbl) et [] pathStr ∈
      (refTableStep cfg pathStr opId props et st tbl).2.1 := by
  unfold refTableStep
  dsimp only
  rw [if_pos (by simp [hf, ho])]
  exact List.mem_append_right _ (List.mem_singleton.mpr rfl)

theorem foldl_refTableStep_mem (cfg : Cfg) (pathStr opId : Str)
    (props : List (String × Py)) (et : EdgeType) (l : List Str) (tbl : Str)
    (hl : tbl ∈ l) (hf : isFakeTable tbl = false)
    (ho : isOracleFunctionP tbl = false) :
    ∀ st, makeEdge opId (lstr "table::" ++ tbl) et [] pathStr ∈
      (l.foldl (refTableStep cfg pathStr opId props et) st).2.1 := by
  induction l with
  | nil => cases hl
  | cons a t ih =>
    intro st
    rw [List.foldl_cons]
    rcases List.mem_cons.mp hl with h1 | h1
    · subst h1
      exact foldl_pres (fun (st : List Node × List Edge × FState) => _ ∈ st.2.1)
        _ (fun st x hp => refTableStep_edge_mem cfg pathStr opId props et st x _ hp)
        t _ (refTableStep_adds_edge cfg pathStr opId props et st tbl hf ho)
    · exact ih h1 _

theorem iteSem_edges_mem (env : AstEnv) (cfg : Cfg) (opId block : Str)
    (st : List Node × List Edge × FState) (e : Edge) (h : e ∈ st.2.1) :
    e ∈ (if (semanticsPhase env cfg opId block st).2.length ≠ 0 then
        (setOpSemantics (semanticsPhase env cfg opId block st).1.1 opId
            (semanticsPhase env cfg opId block st).2,
          (semanticsPhase env cfg opId block st).1.2.1,
          (semanticsPhase env cfg opId block st).1.2.2)
      else (semanticsPhase env cfg opId block st).1).2.1 := by
  split
  · exact semanticsPhase_edge_mem env cfg opId block st e h
  · exact semanticsPhase_edge_mem env cfg opId block st e h

theorem opRaw_dml_edges (env : AstEnv) (cfg : Cfg)
    (pathStr pathName stem raw opName : Str) (start stop : Nat) (fst : FState)
    (tbl : Str)
    (hr : tbl ∈ (extractTablesFromDml (slice raw start stop)).1)
    (hw : tbl ∈ (extractTablesFromDml (slice raw start stop)).2)
    (hf : isFakeTable tbl = false) (ho : isOracleFunctionP tbl = false) :
    makeEdge (opIdOf pathName (slice raw start stop) opName)
        (lstr "table::" ++ tbl) .READS_FROM [] pathStr ∈
      (opRaw env cfg pathStr pathName stem raw opName start stop fst).1.2 ∧
    makeEdge (opIdOf pathName (slice raw start stop) opName)
        (lstr "table::" ++ tbl) .WRITES_TO [] pathStr ∈
      (opRaw env cfg pathStr pathName stem raw opName start stop fst).1.2 := by
  unfold opRaw
  dsimp only
  constructor
  · apply foldl_pres (fun (st : List Node × List Edge × FState) =>
      makeEdge _ (lstr "table::" ++ tbl) EdgeType.READS_FROM [] pathStr ∈ st.2.1)
    · intro st x hp
      dsimp only
      exact List.mem_append_left _ hp
    · apply foldl_pres (fun (st : List Node × List Edge × FState) =>
        makeEdge _ (lstr "table::" ++ tbl) EdgeType.READS_FROM [] pathStr ∈ st.2.1)
      · intro st x hp
        dsimp only
        exact List.mem_append_left _ hp
      · apply iteSem_edges_mem
        apply foldl_pres (fun (st : List Node × List Edge × FState) =>
          makeEdge _ (lstr "table::" ++ tbl) EdgeType.READS_FROM [] pathStr ∈ st.2.1)
        · intro st x hp
          exact callStep_edge_mem _ _ _ _ _ _ _ hp
        · apply foldl_pres (fun (st : List Node × List Edge × FState) =>
            makeEdge _ (lstr "table::" ++ tbl) EdgeType.READS_FROM [] pathStr ∈ st.2.1)
          · intro st x hp
            exact refTableStep_edge_mem _ _ _ _ _ _ _ _ hp
          · exact foldl_refTableStep_mem _ _ _ _ _ _ _ hr hf ho _
  · apply foldl_pres (fun (st : List Node × List Edge × FState) =>
      makeEdge _ (lstr "table::" ++ tbl) EdgeType.WRITES_TO [] pathStr ∈ st.2.1)
    · intro st x hp
      dsimp only
      exact List.mem_append_left _ hp
    · apply foldl_pres (fun (st : List Node × List Edge × FState) =>
        makeEdge _ (lstr "table::" ++ tbl) EdgeType.WRITES_TO [] pathStr ∈ st.2.1)
      · intro st x hp
        dsimp only
        exact List.mem_append_left _ hp
      · apply iteSem_edges_mem
        apply foldl_pres (fun (st : List Node × List Edge × FState) =>
          makeEdge _ (lstr "table::" ++ tbl) EdgeType.WRITES_TO [] pathStr ∈ st.2.1)
        · intro st x hp
          exact callStep_edge_mem _ _ _ _ _ _ _ hp
        · exact foldl_refTableStep_mem _ _ _ _ _ _ _ hw hf ho _

/-- C2 (amended).  For every operation span and every table name that the
DML extraction reports both as a read target and as a write target (and that
is neither a fake-table name nor an Oracle built-in function name, with both
edges passing edge validation), the batch yielded for that operation contains
a `WritesTo` edge from the operation to that table AND ALSO a `ReadsFrom`
edge from the operation to that table: the parser has no write-wins
resolution. -/
theorem dml_read_write_both_edges (env : AstEnv) (cfg : Cfg)
    (pathStr pathName stem raw opName : Str) (start stop : Nat) (fst : FState)
    (tbl : Str)
    (hr : tbl ∈ (extractTablesFromDml (slice raw start stop)).1)
    (hw : tbl ∈ (extractTablesFromDml (slice raw start stop)).2)
    (hf : isFakeTable tbl = false) (ho : isOracleFunctionP tbl = false)
    (hvr : validateEdgeV (makeEdge (opIdOf pathName (slice raw start stop) opName)
      (lstr "table::" ++ tbl) .READS_FROM [] pathStr) = true)
    (hvw : validateEdgeV (makeEdge (opIdOf pathName (slice raw start stop) opName)
      (lstr "table::" ++ tbl) .WRITES_TO [] pathStr) = true) :
    (∃ e, e ∈ (opBatch env cfg pathStr pathName stem raw opName start stop fst).1.2 ∧
      edgeKey e = (opIdOf pathName (slice raw start stop) opName,
        lstr "table::" ++ tbl, EdgeType.WRITES_TO)) ∧
    (∃ e, e ∈ (opBatch env cfg pathStr pathName stem raw opName start stop fst).1.2 ∧
      edgeKey e = (opIdOf pathName (slice raw start stop) opName,
        lstr "table::" ++ tbl, EdgeType.READS_FROM)) := by
  obtain ⟨hrm, hwm⟩ := opRaw_dml_edges env cfg pathStr pathName stem raw opName
    start stop fst tbl hr hw hf ho
  unfold opBatch validateAndDedup dedupEdges
  dsimp only
  constructor
  · apply dedupByKey_exists_of_mem
    exact List.mem_map.mpr ⟨_, List.mem_filter.mpr ⟨hwm, hvw⟩, rfl⟩
  · apply dedupByKey_exists_of_mem
    exact List.mem_map.mpr ⟨_, List.mem_filter.mpr ⟨hrm, hvr⟩, rfl⟩

/-- C2 witness: in `update t from t`, the table `t` is both a DML read and a
DML write target, and the single anonymous operation's batch carries both a
`WritesTo` and a `ReadsFrom` edge to `table::t`. -/
theorem dml_read_write_both_edges_witness :
    (∃ e, e ∈ (opBatch noSqlglot defaultCfg (lstr "f.sql") (lstr "f.sql")
        (lstr "f") (stripComments (lstr "update t from t"))
        (lstr "anonymous_block") 0
        (stripComments (lstr "update t from t")).length ([], [])).1.2 ∧
      edgeKey e = (opIdOf (lstr "f.sql")
        (slice (stripComments (lstr "update t from t")) 0
          (stripComments (lstr "update t from t")).length)
        (lstr "anonymous_block"), lstr "table::" ++ lstr "t",
        EdgeType.WRITES_TO)) ∧
    (∃ e, e ∈ (opBatch noSqlglot defaultCfg (lstr "f.sql") (lstr "f.sql")
        (lstr "f") (stripComments (lstr "update t from t"))
        (lstr "anonymous_block") 0
        (stripComments (lstr "update t from t")).length ([], [])).1.2 ∧
      edgeKey e = (opIdOf (lstr "f.sql")
        (slice (stripComments (lstr "update t from t")) 0
          (stripComments (lstr "update t from t")).length)
        (lstr "anonymous_block"), lstr "table::" ++ lstr "t",
        EdgeType.READS_FROM)) :=
  dml_read_write_both_edges noSqlglot defaultCfg (lstr "f.sql") (lstr "f.sql")
    (lstr "f") (stripComments (lstr "update t from t")) (lstr "anonymous_block")
    0 (stripComments (lstr "update t from t")).length ([], []) (lstr "t")
    (by decide) (by decide) (by decide) (by decide) (by decide) (by decide)

/-- C2 counterexample to the frozen claim: for the input `update t from t`,
the name `t` is both a read and a write target of the one operation span, yet
the yielded edge set DOES contain a `ReadsFrom` edge from the operation to
`table::t` — the claimed write-wins suppression does not exist. -/
theorem write_wins_counterexample :
    lstr "t" ∈ (extractTablesFromDml (stripComments (lstr "update t from t"))).1 ∧
    lstr "t" ∈ (extractTablesFromDml (stripComments (lstr "update t from t"))).2 ∧
    ((parseBatches noSqlglot defaultCfg (lstr "f.sql")
        (lstr "update t from t")).map (fun b => b.2.map edgeKey)).flatten.contains
      (lstr "plsql::f.sql::data_update_task", lstr "table::t",
        EdgeType.READS_FROM) = true := by
  refine ⟨by decide, by decide, by decide⟩

theorem mem_parseBatches_aux (env : AstEnv) (cfg : Cfg)
    (pathStr pathName stem raw : Str) :
    ∀ (l : List (Str × Nat × Nat)) (acc : List (List Node × List Edge) × FState)
      (b : List Node × List Edge),
      b ∈ (l.foldl (fun (acc : List (List Node × List Edge) × FState)
        (op : Str × Nat × Nat) =>
        (acc.1 ++ [(opBatch env cfg pathStr pathName stem raw op.1 op.2.1 op.2.2
            acc.2).1],
          (opBatch env cfg pathStr pathName stem raw op.1 op.2.1 op.2.2
            acc.2).2)) acc).1 →
      b ∈ acc.1 ∨ ∃ (op : Str × Nat × Nat) (fst : FState),
        b = (opBatch env cfg pathStr pathName stem raw op.1 op.2.1 op.2.2 fst).1 := by
  intro l
  induction l with
  | nil => intro acc b h; exact Or.inl h
  | cons a t ih =>
    intro acc b h
    rw [List.foldl_cons] at h
    rcases ih _ b h with h1 | h1
    · rcases List.mem_append.mp h1 with h2 | h2
      · exact Or.inl h2
      · exact Or.inr ⟨a, acc.2, List.mem_singleton.mp h2⟩
    · exact Or.inr h1

theorem mem_parseBatches (env : AstEnv) (cfg : Cfg) (filePath text : Str)
    (b : List Node × List Edge) (h : b ∈ parseBatches env cfg filePath text) :
    ∃ (op : Str × Nat × Nat) (fst : FState),
      b = (opBatch env cfg filePath (pathNameOf filePath)
        (stemOf (pathNameOf filePath)) (stripComments text)
        op.1 op.2.1 op.2.2 fst).1 := by
  unfold parseBatches at h
  dsimp only at h
  rcases mem_parseBatches_aux env cfg filePath (pathNameOf filePath)
      (stemOf (pathNameOf filePath)) (stripComments text) _ _ _ h with h1 | h1
  · cases h1
  · exact h1

theorem validateNodeV_props (m n : Node) (h : validateNodeV m = some n) :
    n.node_type = m.node_type ∧ n.name = m.name ∧
      (n.node_type = .TABLE →
        isFakeTable n.name = false ∧ isOracleFunctionP n.name = false) := by
  unfold validateNodeV at h
  split at h
  · cases h
  · rename_i h1
    split at h
    · cases h
    · rename_i h2
      cases h
      refine ⟨rfl, rfl, ?_⟩
      intro ht
      constructor
      · cases hfk : isFakeTable m.name
        · rfl
        · exact absurd ⟨ht, hfk⟩ h1
      · cases hof : isOracleFunctionP m.name
        · rfl
        · exact absurd ⟨ht, hof⟩ h2

/-- C5 (amended).  For every input file, every Table node contained in any
yielded batch has a name that does not start with the character `(` and is
not a member of the Oracle built-in function name set.  (Non-emptiness is
NOT guaranteed: the validator has no empty-name check.) -/
theorem table_nodes_validated (env : AstEnv) (cfg : Cfg) (filePath text : Str)
    (b : List Node × List Edge) (hb : b ∈ parseBatches env cfg filePath text)
    (n : Node) (hn : n ∈ b.1) (ht : n.node_type = .TABLE) :
    startsWith n.name (lstr "(") = false ∧
      ORACLE_FUNCTIONS_P.contains (lowS n.name) = false := by
  obtain ⟨op, fst, rfl⟩ := mem_parseBatches env cfg filePath text b hb
  unfold opBatch validateAndDedup dedupNodes at hn
  dsimp only at hn
  have hmem := mem_of_mem_dedupByKey _ _ _ hn
  obtain ⟨m, _, hv⟩ := List.mem_filterMap.mp hmem
  obtain ⟨_, _, hfacts⟩ := validateNodeV_props m n hv
  obtain ⟨hf, ho⟩ := hfacts ht
  constructor
  · unfold isFakeTable at hf
    exact (Bool.or_eq_false_iff.mp hf).2
  · unfold isOracleFunctionP at ho
    exact ho

theorem memHeadD {α : Type} (l : List α) (d : α) (h : l.isEmpty = false) :
    l.headD d ∈ l := by
  cases l with
  | nil => cases h
  | cons a t => exact List.mem_cons_self a t

theorem memGetD {α : Type} : ∀ (l : List α) (i : Nat) (d : α), i < l.length →
    l.getD i d ∈ l := by
  intro l
  induction l with
  | nil => intro i d h; cases h
  | cons a t ih =>
    intro i d h
    cases i with
    | zero => exact List.mem_cons_self a t
    | succ k =>
      exact List.mem_cons_of_mem a (ih k d (Nat.lt_of_succ_lt_succ h))

/-- C5 witness: the third node of the one batch of `update t from t` is the
Table node `t`; the theorem applies to it. -/
theorem table_nodes_validated_witness :
    startsWith (((parseBatches noSqlglot defaultCfg (lstr "f.sql")
        (lstr "update t from t")).headD ([], [])).1.getD 2
        ⟨[], .TABLE, [], []⟩).name (lstr "(") = false ∧
      ORACLE_FUNCTIONS_P.contains (lowS (((parseBatches noSqlglot defaultCfg
        (lstr "f.sql") (lstr "update t from t")).headD ([], [])).1.getD 2
        ⟨[], .TABLE, [], []⟩).name) = false :=
  table_nodes_validated noSqlglot defaultCfg (lstr "f.sql")
    (lstr "update t from t") _ (memHeadD _ _ (by decide)) _
    (memGetD _ 2 _ (by decide)) (by decide)

/-- C5 counterexample to the non-emptiness conjunct of the frozen claim: the
input `select x from ""` yields a Table node whose name is the empty string
(the validator never checks emptiness). -/
theorem empty_table_name_counterexample :
    ((parseBatches noSqlglot defaultCfg (lstr "f.sql")
        (lstr "select x from \x22\x22")).map
      (fun b => b.1.map (fun n => (n.name, n.node_type)))).flatten.contains
      ([], .TABLE) = true := by
  decide

/-- C6.  However many duplicate `References` edges for the pair `(A, B)` the
different extraction paths of one operation put into the raw edge list, the
yielded batch contains EXACTLY ONE `References` edge from `table::A` to
`table::B` — and none in the reverse direction provided no analysis produced
one (for a single `A JOIN B ON ...` clause the join emission always orients
left-to-right), so exactly one `References` edge exists between the two
tables. -/
theorem join_edge_unique (env : AstEnv) (cfg : Cfg)
    (pathStr pathName stem raw opName : Str) (start stop : Nat) (fst : FState)
    (a b : Str)
    (h : (lstr "table::" ++ a, lstr "table::" ++ b, EdgeType.REFERENCES) ∈
      ((opRaw env cfg pathStr pathName stem raw opName start stop fst).1.2.filter
        validateEdgeV).map edgeKey)
    (h2 : (lstr "table::" ++ b, lstr "table::" ++ a, EdgeType.REFERENCES) ∉
      ((opRaw env cfg pathStr pathName stem raw opName start stop fst).1.2.filter
        validateEdgeV).map edgeKey) :
    ((opBatch env cfg pathStr pathName stem raw opName start stop fst).1.2.filter
      (fun e => edgeKey e = (lstr "table::" ++ a, lstr "table::" ++ b,
        EdgeType.REFERENCES))).length = 1 ∧
    ((opBatch env cfg pathStr pathName stem raw opName start stop fst).1.2.filter
      (fun e => edgeKey e = (lstr "table::" ++ b, lstr "table::" ++ a,
        EdgeType.REFERENCES))).length = 0 := by
  unfold opBatch validateAndDedup dedupEdges
  dsimp only
  rw [length_filter_dedupByKey, length_filter_dedupByKey]
  rw [if_pos h, if_neg h2]
  exact ⟨rfl, rfl⟩

/-- C6 witness: the single-join statement `select a.id from a join b on
a.id = b.id;` yields exactly one `References` edge `table::a → table::b` and
none in the reverse direction. -/
theorem join_edge_unique_witness :
    ((opBatch noSqlglot defaultCfg (lstr "f.sql") (lstr "f.sql") (lstr "f")
        (stripComments (lstr "select a.id from a join b on a.id = b.id;"))
        (lstr "anonymous_block") 0
        (stripComments (lstr "select a.id from a join b on a.id = b.id;")).length
        ([], [])).1.2.filter
      (fun e => edgeKey e = (lstr "table::" ++ lstr "a", lstr "table::" ++ lstr "b",
        EdgeType.REFERENCES))).length = 1 ∧
    ((opBatch noSqlglot defaultCfg (lstr "f.sql") (lstr "f.sql") (lstr "f")
        (stripComments (lstr "select a.id from a join b on a.id = b.id;"))
        (lstr "anonymous_block") 0
        (stripComments (lstr "select a.id from a join b on a.id = b.id;")).length
        ([], [])).1.2.filter
      (fun e => edgeKey e = (lstr "table::" ++ lstr "b", lstr "table::" ++ lstr "a",
        EdgeType.REFERENCES))).length = 0 :=
  join_edge_unique noSqlglot defaultCfg (lstr "f.sql") (lstr "f.sql") (lstr "f")
    (stripComments (lstr "select a.id from a join b on a.id = b.id;"))
    (lstr "anonymous_block") 0
    (stripComments (lstr "select a.id from a join b on a.id = b.id;")).length
    ([], []) (lstr "a") (lstr "b") (by decide) (by decide)

/-- C7.  Parsing the same file twice with the same configuration yields the
same batch list — the batch component of `parse` never reads the carried
mutable validation-report state, which is the only parser state surviving a
run — and within every batch the node keys `(node_id, node_type)` and the
edge keys `(source_id, target_id, relation)` are duplicate-free, so equality
of the lists is exactly set equality under those keys. -/
theorem parse_idempotent (env : AstEnv) (cfg : Cfg) (filePath text : Str)
    (r1 r2 : Report) :
    (parseFile env cfg filePath text r1).1 = (parseFile env cfg filePath text r2).1 ∧
    ∀ b ∈ (parseFile env cfg filePath text r1).1,
      (b.1.map nodeKey).Nodup ∧ (b.2.map edgeKey).Nodup := by
  constructor
  · rfl
  · intro b hb
    unfold parseFile at hb
    dsimp only at hb
    obtain ⟨op, fst, rfl⟩ := mem_parseBatches env cfg filePath text b hb
    unfold opBatch validateAndDedup dedupNodes dedupEdges
    dsimp only
    exact ⟨nodup_keys_dedupByKey _ _, nodup_keys_dedupByKey _ _⟩

/-- C9.  Operation segmentation: on the comment-stripped text, if the
procedure/function pattern finds nothing but a bare `BEGIN` exists, or if
there is no `BEGIN` but one of the DML/DDL statement patterns matches, the
operation list is exactly one anonymous span covering the whole text; with
neither a routine, a `BEGIN`, nor a DML/DDL keyword, `parse` yields no
batches at all. -/
theorem operation_segmentation (env : AstEnv) (cfg : Cfg) (filePath text : Str) :
    rxFindIter procRe (stripComments text) = [] →
      ((rxSearch beginRe (stripComments text)).isSome = true →
        parseOps (stripComments text) =
          [(lstr "anonymous_block", 0, (stripComments text).length)]) ∧
      (rxSearch beginRe (stripComments text) = none →
        hasDmlSignal (stripComments text) = true →
        parseOps (stripComments text) =
          [(lstr "anonymous_block", 0, (stripComments text).length)]) ∧
      (rxSearch beginRe (stripComments text) = none →
        hasDmlSignal (stripComments text) = false →
        parseBatches env cfg filePath text = []) := by
  intro hproc
  have hdet0 : rxSearch beginRe (stripComments text) = none →
      detectOperations (stripComments text) = [] := by
    intro hb
    unfold detectOperations
    rw [hproc, hb]
    simp
  refine ⟨?_, ?_, ?_⟩
  · intro hb
    unfold parseOps detectOperations
    rw [hproc]
    simp [hb]
  · intro hb hdml
    unfold parseOps
    rw [hdet0 hb]
    simp [hdml]
  · intro hb hdml
    have hops : parseOps (stripComments text) = [] := by
      unfold parseOps
      rw [hdet0 hb]
      simp [hdml]
    unfold parseBatches
    dsimp only
    rw [hops]
    rfl

/-- C9 witness: the three segmentation regimes at concrete inputs — a bare
`BEGIN` block, DML with no `BEGIN`, and plain prose. -/
theorem operation_segmentation_witness :
    parseOps (stripComments (lstr "begin update t set x = 1; end;")) =
      [(lstr "anonymous_block", 0,
        (stripComments (lstr "begin update t set x = 1; end;")).length)] ∧
    parseOps (stripComments (lstr "update t set x = 1;")) =
      [(lstr "anonymous_block", 0,
        (stripComments (lstr "update t set x = 1;")).length)] ∧
    parseBatches noSqlglot defaultCfg (lstr "f.sql") (lstr "hello world") = [] :=
  ⟨(operation_segmentation noSqlglot defaultCfg (lstr "f.sql")
      (lstr "begin update t set x = 1; end;") (by decide)).1 (by decide),
   (operation_segmentation noSqlglot defaultCfg (lstr "f.sql")
      (lstr "update t set x = 1;") (by decide)).2.1 (by decide) (by decide),
   (operation_segmentation noSqlglot defaultCfg (lstr "f.sql")
      (lstr "hello world") (by decide)).2.2 (by decide) (by decide)⟩

/-- C1 (code divergence).  For the input
`CREATE TABLE T (id NUMBER(10), name VARCHAR2(50))` the pipeline does yield
exactly one Table node named `T`, but its properties carry NO `type_mapping`
block at all: `detect_column_types_from_sql` truncates the column region at
the first `)` (the lazy `(.*?)\)` group), its balanced-comma splitter then
never flushes a definition, and the empty column list suppresses the
`type_mapping` property the claim expects (two columns, DECIMAL/VARCHAR,
confidence 1.0). -/
theorem create_table_type_mapping_missing :
    detectColumnTypesFromSql
      (lstr "CREATE TABLE T (id NUMBER(10), name VARCHAR2(50))") = [] ∧
    ((parseBatches noSqlglot defaultCfg (lstr "f.sql")
        (lstr "CREATE TABLE T (id NUMBER(10), name VARCHAR2(50))")).map
      (fun b => b.1.filter (fun n => n.node_type = NodeType.TABLE))).flatten.map
        (fun n => (n.name, n.properties.map Prod.fst)) =
      [(lstr "T", ["create_statement", "table_source", "fqn",
        "qualified_name", "technology"])] := by
  exact ⟨by decide, by decide⟩

end Mz
